import Mathlib

/-!
Shallow embedding of the simulation driver core in
`src/myokit_beta/_sim/_cvodessim.c` (an ODE cell-model simulator built on the
CVODES integrator), together with theorems about its behaviour.

Embedding conventions:

* C `double`/`realtype` values are embedded as rationals (`ℚ`), so that all
  arithmetic is exact and every definition is executable.  The transcendental
  functions used by the generated model code (`exp`, `log`, `sqrt`, `pow`) are
  supplied by an abstract `MathOps` record: no theorem below depends on their
  values.
* The CVODES integrator is external to the repository; a call to `CVode` is
  embedded as consuming one element of an oracle list of `CVodeOutcome`s
  (either a failure flag or a successful step carrying the new time, state,
  and a dense-output interpolant).
* The pacing subsystem lives in `pacing.h`, which is not part of the source
  tree; the pieces of it the driver uses (`ESys`/`FSys` level and next-time
  queries, and the `ESys_eq` fuzzy time comparison) are modelled from the
  specification and marked as such.
* Python lists with an `append` method are embedded as Lean lists; a log
  append may fail (as `PyObject_CallMethodObjArgs` may), which is modelled by
  an oracle `appendOk`.  Benchmarking / realtime logging and the CPython
  reference-counting machinery have no observable effect on the properties
  below and are not modelled.
* The driver's inner logging loop (`while (t > tlog)`) is given explicit fuel
  (`Env.logFuel`); exhaustion produces the artificial outcome `fuelOut`,
  which never occurs for adequately provisioned runs and is distinct from
  every real error path.
-/

namespace Myokit

/-- Abstract transcendental operations standing in for the C library functions
`exp`, `log`, `sqrt` and `pow` used by the generated model code. -/
structure MathOps where
  exp : ℚ → ℚ
  log : ℚ → ℚ
  sqrt : ℚ → ℚ
  pow : ℚ → ℚ → ℚ

/-- The model record, translated from `struct Model_Memory` in
`_cvodessim.c` (lines 270-356).  Pointer-valued logging fields are kept in
the driver state instead; the `s_independents` pointer array is represented
as (is-parameter, index) pairs as the spec suggests. -/
structure Model where
  is_ode : Bool
  has_sensitivities : Bool
  n_pace : Nat
  pace_values : List ℚ
  time : ℚ
  realtime : ℚ
  evaluations : ℚ
  n_states : Nat
  states : List ℚ
  derivatives : List ℚ
  n_intermediary : Nat
  intermediary : List ℚ
  n_parameters : Nat
  n_parameter_derived : Nat
  parameters : List ℚ
  parameter_derived : List ℚ
  n_literals : Nat
  n_literal_derived : Nat
  literals : List ℚ
  literal_derived : List ℚ
  ns_dependents : Nat
  ns_independents : Nat
  s_independents : List (Bool × Nat)
  s_is_parameter : List Bool
  s_states : List ℚ
  ns_intermediary : Nat
  s_intermediary : List ℚ
  logging_initialized : Bool
  logging_states : Bool
  logging_derivatives : Bool
  logging_intermediary : Bool
  logging_bound : Bool
  n_logged_variables : Nat

/-- Translation of `Model_EvaluateLiteralDerivedVariables` (lines 530-543):
recomputes the six literal-derived constants from the current literals. -/
def Model_EvaluateLiteralDerivedVariables (ops : MathOps) (m : Model) : Model :=
  let C_Ca_o := m.literals.getD 0 0
  let C_K_i := m.literals.getD 1 0
  let C_K_o := m.literals.getD 2 0
  let C_Na_i := m.literals.getD 3 0
  let C_Na_o := m.literals.getD 4 0
  let C_F := m.literals.getD 5 0
  let C_R := m.literals.getD 6 0
  let C_T := m.literals.getD 7 0
  let C_PNa_K := m.literals.getD 11 0
  let C_RTF := C_R * C_T / C_F
  let C_gK := 0.282 * ops.sqrt (C_K_o / 5.4)
  let C_ik_IK_E := C_RTF * ops.log ((C_K_o + C_PNa_K * C_Na_o) / (C_K_i + C_PNa_K * C_Na_i))
  let C_ik1_E := C_RTF * ops.log (C_K_o / C_K_i)
  let C_gK1 := 0.6047 * ops.sqrt (C_K_o / 5.4)
  let C_ENa := C_RTF * ops.log (C_Na_o / C_Na_i)
  have _ := C_Ca_o
  { m with literal_derived :=
      (((((m.literal_derived.set 0 C_RTF).set 1 C_gK).set 2 C_ik_IK_E).set
        3 C_ik1_E).set 4 C_gK1).set 5 C_ENa }

/-- Translation of `Model_EvaluateParameterDerivedVariables` (lines 556-563):
for this generated model the function body is empty. -/
def Model_EvaluateParameterDerivedVariables (m : Model) : Model := m

/-- Translation of `Model_SetParametersFromIndependents` (lines 672-712):
copies the entries of `independents` tagged as parameters into `parameters`
in order, then recomputes the parameter-derived variables.  (The
`Model_CACHING` scan is compiled out in the source.) -/
def Model_SetParametersFromIndependents (m : Model) (ind : List ℚ) : Model :=
  let sel := ((m.s_is_parameter.zip ind).filter (fun p => p.1)).map (fun p => p.2)
  let ps := (List.range m.parameters.length).map
    (fun j => if hj : j < sel.length then sel.get ⟨j, hj⟩ else m.parameters.getD j 0)
  Model_EvaluateParameterDerivedVariables { m with parameters := ps }

/-- Translation of `Model_SetBoundVariables` (lines 729-772): updates time,
the pacing values, realtime and evaluations. -/
def Model_SetBoundVariables (m : Model) (time : ℚ) (pace : List ℚ) (rt ev : ℚ) : Model :=
  { m with time := time,
           pace_values := (List.range m.n_pace).map (fun i => pace.getD i 0),
           realtime := rt, evaluations := ev }

/-- Translation of `Model_SetStates` (lines 785-814): copies the state
values.  (The `Model_CACHING` scan is compiled out in the source.) -/
def Model_SetStates (m : Model) (s : List ℚ) : Model :=
  { m with states := (List.range m.n_states).map (fun i => s.getD i 0) }

/-- Translation of `Model_EvaluateDerivatives` (lines 829-893): recomputes
every intermediary variable and state derivative, in source order, from the
current states, bound variables and constants. -/
def Model_EvaluateDerivatives (ops : MathOps) (m : Model) : Model :=
  let Y_V := m.states.getD 0 0
  let Y_m := m.states.getD 1 0
  let Y_h := m.states.getD 2 0
  let Y_j := m.states.getD 3 0
  let Y_d := m.states.getD 4 0
  let Y_f := m.states.getD 5 0
  let Y_x := m.states.getD 6 0
  let Y_Ca_i := m.states.getD 7 0
  let B_pace := m.pace_values.getD 0 0
  let C_Ca_o := m.literals.getD 0 0
  let C_Eb := m.literals.getD 8 0
  let C_gb := m.literals.getD 9 0
  let C_gCa := m.literals.getD 10 0
  let C_gNa := m.literals.getD 12 0
  let C_gKp := m.literals.getD 13 0
  let C_C := m.literals.getD 14 0
  let C_i_diff := m.literals.getD 15 0
  let C_stim_amplitude := m.literals.getD 16 0
  let C_gK := m.literal_derived.getD 1 0
  let C_ik_IK_E := m.literal_derived.getD 2 0
  let C_ik1_E := m.literal_derived.getD 3 0
  let C_gK1 := m.literal_derived.getD 4 0
  let C_ENa := m.literal_derived.getD 5 0
  -- ib
  let v_Ib := C_gb * (Y_V - C_Eb)
  -- ica
  let v_ica_E := 7.7 - 13.0287 * ops.log (Y_Ca_i / C_Ca_o)
  let v_ica_d_alpha := 0.095 * ops.exp ((-0.01) * (Y_V - 5.0)) / (1.0 + ops.exp ((-0.072) * (Y_V - 5.0)))
  let v_ica_d_beta := 0.07 * ops.exp ((-0.017) * (Y_V + 44.0)) / (1.0 + ops.exp (0.05 * (Y_V + 44.0)))
  let d_d := v_ica_d_alpha * (1.0 - Y_d) - v_ica_d_beta * Y_d
  let v_ica_f_alpha := 0.012 * ops.exp ((-0.008) * (Y_V + 28.0)) / (1.0 + ops.exp (0.15 * (Y_V + 28.0)))
  let v_ica_f_beta := 0.0065 * ops.exp ((-0.02) * (Y_V + 30.0)) / (1.0 + ops.exp ((-0.2) * (Y_V + 30.0)))
  let d_f := v_ica_f_alpha * (1.0 - Y_f) - v_ica_f_beta * Y_f
  let v_ICa := C_gCa * Y_d * Y_f * (Y_V - v_ica_E)
  let d_Ca_i := (-0.0001) * v_ICa + 0.07 * (0.0001 - Y_Ca_i)
  -- ik
  let v_xi := if Y_V < (-100.0) then 1.0 else
    (if Y_V = (-77.0) then 2.837 * 0.04 / ops.exp (0.04 * (Y_V + 35.0))
     else 2.837 * (ops.exp (0.04 * (Y_V + 77.0)) - 1.0) / ((Y_V + 77.0) * ops.exp (0.04 * (Y_V + 35.0))))
  let v_ik_x_alpha := 0.0005 * ops.exp (0.083 * (Y_V + 50.0)) / (1.0 + ops.exp (0.057 * (Y_V + 50.0)))
  let v_ik_x_beta := 0.0013 * ops.exp ((-0.06) * (Y_V + 20.0)) / (1.0 + ops.exp ((-0.04) * (Y_V + 20.0)))
  let d_x := v_ik_x_alpha * (1.0 - Y_x) - v_ik_x_beta * Y_x
  let v_IK := C_gK * v_xi * Y_x * (Y_V - C_ik_IK_E)
  -- ik1
  let v_ik1_g_alpha := 1.02 / (1.0 + ops.exp (0.2385 * (Y_V - C_ik1_E - 59.215)))
  let v_ik1_g_beta := (0.49124 * ops.exp (0.08032 * (Y_V - C_ik1_E + 5.476)) + 1.0 * ops.exp (0.06175 * (Y_V - C_ik1_E - 594.31))) / (1.0 + ops.exp ((-0.5143) * (Y_V - C_ik1_E + 4.753)))
  let v_g := v_ik1_g_alpha / (v_ik1_g_alpha + v_ik1_g_beta)
  let v_IK1 := C_gK1 * v_g * (Y_V - C_ik1_E)
  -- ina
  let v_a := 1.0 - 1.0 / (1.0 + ops.exp ((-(Y_V + 40.0)) / 0.24))
  let v_ina_m_alpha := 0.32 * (Y_V + 47.13) / (1.0 - ops.exp ((-0.1) * (Y_V + 47.13)))
  let v_ina_m_beta := 0.08 * ops.exp ((-Y_V) / 11.0)
  let d_m := v_ina_m_alpha * (1.0 - Y_m) - v_ina_m_beta * Y_m
  let v_INa := C_gNa * ops.pow Y_m 3.0 * Y_h * Y_j * (Y_V - C_ENa)
  let v_ina_h_alpha := v_a * 0.135 * ops.exp ((80.0 + Y_V) / (-6.8))
  let v_ina_h_beta := v_a * (3.56 * ops.exp (0.079 * Y_V) + 310000.0 * ops.exp (0.35 * Y_V)) + (1.0 - v_a) / (0.13 * (1.0 + ops.exp ((Y_V + 10.66) / (-11.1))))
  let d_h := v_ina_h_alpha * (1.0 - Y_h) - v_ina_h_beta * Y_h
  let v_ina_j_alpha := v_a * ((-127140.0) * ops.exp (0.2444 * Y_V) - 3.474e-05 * ops.exp ((-0.04391) * Y_V)) * (Y_V + 37.78) / (1.0 + ops.exp (0.311 * (Y_V + 79.23)))
  let v_ina_j_beta := v_a * (0.1212 * ops.exp ((-0.01052) * Y_V) / (1.0 + ops.exp ((-0.1378) * (Y_V + 40.14)))) + (1.0 - v_a) * (0.3 * ops.exp ((-2.535e-07) * Y_V) / (1.0 + ops.exp ((-0.1) * (Y_V + 32.0))))
  let d_j := v_ina_j_alpha * (1.0 - Y_j) - v_ina_j_beta * Y_j
  -- ikp
  let v_Kp := 1.0 / (1.0 + ops.exp ((7.488 - Y_V) / 5.98))
  let v_IKp := C_gKp * v_Kp * (Y_V - C_ik1_E)
  -- membrane
  let v_i_ion := v_INa + v_IK + v_Ib + v_IKp + v_IK1 + v_ICa
  let v_i_stim := B_pace * C_stim_amplitude
  let d_V := (-(1.0 / C_C)) * (v_i_ion + C_i_diff + v_i_stim)
  -- the source stores each value as it is computed; replaying the writes in
  -- source order:
  let im := m.intermediary
  let dv := m.derivatives
  let im := im.set 26 v_Ib
  let im := im.set 16 v_ica_E
  let im := im.set 17 v_ica_d_alpha
  let im := im.set 18 v_ica_d_beta
  let dv := dv.set 4 d_d
  let im := im.set 19 v_ica_f_alpha
  let im := im.set 20 v_ica_f_beta
  let dv := dv.set 5 d_f
  let im := im.set 21 v_ICa
  let dv := dv.set 7 d_Ca_i
  let im := im.set 4 v_xi
  let im := im.set 2 v_ik_x_alpha
  let im := im.set 3 v_ik_x_beta
  let dv := dv.set 6 d_x
  let im := im.set 5 v_IK
  let im := im.set 23 v_ik1_g_alpha
  let im := im.set 24 v_ik1_g_beta
  let im := im.set 22 v_g
  let im := im.set 25 v_IK1
  let im := im.set 6 v_a
  let im := im.set 7 v_ina_m_alpha
  let im := im.set 8 v_ina_m_beta
  let dv := dv.set 1 d_m
  let im := im.set 13 v_INa
  let im := im.set 9 v_ina_h_alpha
  let im := im.set 10 v_ina_h_beta
  let dv := dv.set 2 d_h
  let im := im.set 11 v_ina_j_alpha
  let im := im.set 12 v_ina_j_beta
  let dv := dv.set 3 d_j
  let im := im.set 14 v_Kp
  let im := im.set 15 v_IKp
  let im := im.set 0 v_i_ion
  let im := im.set 1 v_i_stim
  let dv := dv.set 0 d_V
  { m with intermediary := im, derivatives := dv }

/-- Translation of `Model_EvaluateSensitivityOutputs` (lines 956-970): for
this generated model (no sensitivity outputs) the function body is empty. -/
def Model_EvaluateSensitivityOutputs (m : Model) : Model := m

/-- Translation of `Model_SetupPacing` (lines 493-517): allocates the model's
pacing-value array and clears it to zero. -/
def Model_SetupPacing (m : Model) (n : Nat) : Model :=
  { m with n_pace := n, pace_values := List.replicate n 0 }

/-- Translation of `Model_Create` (lines 1228-1389).  `junk` stands for the
contents of memory returned by `malloc` for the arrays the function does not
initialise (derivatives, intermediary variables and, before their evaluation,
the literal-derived constants). -/
def Model_Create (ops : MathOps) (junk : ℚ) : Model :=
  let m : Model := {
    is_ode := true
    has_sensitivities := false
    n_pace := 0
    pace_values := []
    time := 0
    realtime := 0
    evaluations := 0
    n_states := 8
    states := [-84.5286, 0.0017, 0.9832, 0.995484, 3e-06, 1.0, 0.0057, 0.0002]
    derivatives := List.replicate 8 junk
    n_intermediary := 27
    intermediary := List.replicate 27 junk
    n_parameters := 0
    n_parameter_derived := 0
    parameters := []
    parameter_derived := []
    n_literals := 17
    n_literal_derived := 6
    literals := [1.8, 145.0, 5.4, 10.0, 140.0, 96500.0, 8314.0, 310.0,
                 -59.87, 0.03921, 0.09, 0.01833, 16.0, 0.0183, 1.0, 0.0, -80.0]
    literal_derived := List.replicate 6 junk
    ns_dependents := 0
    ns_independents := 0
    s_independents := []
    s_is_parameter := []
    s_states := []
    ns_intermediary := 0
    s_intermediary := []
    logging_initialized := false
    logging_states := false
    logging_derivatives := false
    logging_intermediary := false
    logging_bound := false
    n_logged_variables := 0 }
  Model_EvaluateParameterDerivedVariables (Model_EvaluateLiteralDerivedVariables ops m)

/-- A logging binding: the source variable of one entry of the driver's
logging arrays (`_log_vars` in the source).  The possible sources are the
variable families wired up by `Model_InitializeLogging` (lines 1027-1090):
states, derivatives, the two loggable bound variables (`engine.time` and
`engine.pace`), and intermediary variables. -/
inductive LogVar
  | stateVar (i : Nat)
  | derivVar (i : Nat)
  | boundTime
  | boundPace
  | interVar (i : Nat)
deriving DecidableEq, Repr

/-- Reading the current value of a logging binding, as `Model_Log` does via
the `_log_vars` pointers. -/
def readLogVar (m : Model) : LogVar → ℚ
  | .stateVar i => m.states.getD i 0
  | .derivVar i => m.derivatives.getD i 0
  | .boundTime => m.time
  | .boundPace => m.pace_values.getD 0 0
  | .interVar i => m.intermediary.getD i 0

/-- Translation of `Model_InitializeLogging` (lines 1012-1103) given the
already-resolved bindings: records the logged families and the number of
logged variables.  (The resolution of Python dict keys against variable
names, and the `Model_UNKNOWN_VARIABLES_IN_LOG` check, happen at the Python
boundary and are not modelled.) -/
def Model_InitializeLogging (m : Model) (vars : List LogVar) : Model :=
  { m with
    logging_initialized := true
    n_logged_variables := vars.length
    logging_states := vars.any (fun v => match v with | .stateVar _ => true | _ => false)
    logging_derivatives := vars.any (fun v => match v with | .derivVar _ => true | _ => false)
    logging_bound := vars.any (fun v => match v with | .boundTime => true | .boundPace => true | _ => false)
    logging_intermediary := vars.any (fun v => match v with | .interVar _ => true | _ => false) }

/-- Failure modes of `Model_Log`. -/
inductive LogErr
  | notInitialized
  | appendFailed
deriving DecidableEq, Repr

/-- Inner loop of `Model_Log` (lines 1162-1170): appends the value of each
bound variable to its sink; if the `append` call on the `i`-th sink fails
(oracle `ok i len` is false), the earlier sinks keep their new value and the
loop aborts, as in the source. -/
def modelLogGo (ok : Nat → Nat → Bool) (m : Model) :
    Nat → List (LogVar × List ℚ) → Except (List (List ℚ)) (List (List ℚ))
  | _, [] => .ok []
  | i, (v, s) :: rest =>
    if ok i s.length then
      match modelLogGo ok m (i + 1) rest with
      | .ok tails => .ok ((s ++ [readLogVar m v]) :: tails)
      | .error tails => .error ((s ++ [readLogVar m v]) :: tails)
    else .error (s :: rest.map (fun p => p.2))

/-- Translation of `Model_Log` (lines 1153-1173): appends the current value
of every logged variable to its sink, in registration order. -/
def Model_Log (ok : Nat → Nat → Bool) (m : Model) (vars : List LogVar)
    (sinks : List (List ℚ)) : Except (LogErr × List (List ℚ)) (List (List ℚ)) :=
  if !m.logging_initialized then .error (.notInitialized, sinks)
  else
    match modelLogGo ok m 0 (vars.zip sinks) with
    | .ok zs => .ok (zs ++ sinks.drop vars.length)
    | .error zs => .error (.appendFailed, zs ++ sinks.drop vars.length)

/-- Translation of the `shs` helper (lines 1771-1785): unpacks the
sensitivity vectors into the model's `s_states` matrix (row-major) and
evaluates the sensitivity outputs. -/
def shs (m : Model) (syv : List (List ℚ)) : Model :=
  Model_EvaluateSensitivityOutputs { m with s_states := syv.flatten }

/-- Translation of the parameter-scale computation in `sim_init`
(lines 2316-2318): `pbar[i] = (p[i] == 0.0 ? 1.0 : fabs(p[i]))`, where `p`
holds the values of the sensitivity independents. -/
def pbar_of (p : List ℚ) : List ℚ :=
  p.map (fun pi => if pi = 0 then 1 else |pi|)

/-- The parameter scaling as described by the specification sentence
"per-independent scaling `pbar[i] = max(|p_i|, 1)`"; written from the spec's
words for comparison with `pbar_of`, which is translated from the source. -/
def pbar_spec (p : List ℚ) : List ℚ :=
  p.map (fun pi => max |pi| 1)

/-- Kind tag of a pacing system (the driver's `enum PSysType`). -/
inductive PacingKind
  | event
  | fixed
deriving DecidableEq, Repr

/-- Modelled from the spec: the pacing subsystem lives in `pacing.h`, which
is not part of the source tree.  Per spec section 4.2, every pacing system
exposes `advance_time(t)`, `level()` and `next_time()`; for a cursor advanced
monotonically these are functions of the target time, so an event system is
abstracted by its level and next-event-time functions, and a time-series
(`fixed`) system by its interpolated level function (`next_time` returns
infinity and is never consulted by the driver). -/
structure PacingSys where
  kind : PacingKind
  level : ℚ → ℚ
  nextTime : ℚ → ℚ

/-- One successful return from `CVode(..., CV_ONE_STEP)`: flag
(`CV_SUCCESS` or `CV_ROOT_RETURN` with a crossing direction), the new time
and state, and the dense-output interpolants used by `CVodeGetDky` /
`CVodeGetSensDky` for times inside the step, plus the sensitivity state
fetched by `CVodeGetSens`. -/
structure CVodeStep where
  root : Bool
  rootDir : Int
  t : ℚ
  y : List ℚ
  sy : List (List ℚ)
  interp : ℚ → List ℚ
  interpS : ℚ → List (List ℚ)

/-- Outcome of one `CVode` call: a successful step or a negative flag. -/
inductive CVodeOutcome
  | ok (s : CVodeStep)
  | err (flag : Int)

/-- Error outcomes of the step loop (spec section 7 taxonomy, restricted to
the paths exercised by this embedding).  `oracleOut` and `fuelOut` are
embedding artifacts: the integrator oracle ran dry, or the inner logging
loop ran out of fuel; neither corresponds to a source error path. -/
inductive ErrKind
  | integrator (flag : Int)
  | zeroStep
  | logNotInit
  | logAppend
  | countOverflow
  | logTimesDecreasing
  | oracleOut
  | fuelOut
deriving DecidableEq, Repr

/-- Result of a `sim_step` call: completion with the final time, a
cooperative yield with the current time, or an error. -/
inductive StepResult
  | done (t : ℚ)
  | yield (t : ℚ)
  | error (e : ErrKind)
deriving DecidableEq, Repr

/-- The driver's mutable module-level state (the globals defined at lines
1553-1676 of the source), together with the caller-supplied output
containers.  `logTimes` is instrumentation: it records `model.time` at every
row emitted through `Model_Log`, and `sensRows` counts the rows appended to
`sens_list`. -/
structure SimState where
  model : Model
  pacingSys : List PacingSys
  pacing : List ℚ
  udata_p : List ℚ
  cvode : List CVodeOutcome
  y : List ℚ
  ylast : List ℚ
  sy : List (List ℚ)
  t : ℚ
  tlast : ℚ
  tnext : ℚ
  tmin : ℚ
  tmax : ℚ
  dynamic_logging : Bool
  log_interval : ℚ
  log_times : Option (List ℚ)
  tlog : ℚ
  ilog : Nat
  logVars : List LogVar
  sinks : List (List ℚ)
  logTimes : List ℚ
  sensRows : Nat
  rf_list : List (ℚ × Int)
  zero_step_count : Nat
  steps : Nat
  evaluations : Nat
  realtime : ℚ
  state_py : List ℚ
  bound_py : List ℚ

/-- Environment of a run: the math operations, the `ESys_eq` comparison
(modelled from the spec, see `esys_eq` note), the append oracle for the log
sinks, and the fuel provided to the inner logging loop.  `esys_eq` stands
for the `ESys_eq(t, tmax)` call at line 2965; `pacing.h` is not in the
source tree, and the spec describes it as "snapping `t` to `tmax` when
within a protocol-defined epsilon", so it is kept abstract. -/
structure Env where
  ops : MathOps
  esys_eq : ℚ → ℚ → Bool
  appendOk : Nat → Nat → Bool
  logFuel : Nat

/-- Translation of the RHS function `rhs` (lines 1719-1763): looks up
fixed-form pacing levels, counts the evaluation, pushes bound variables,
sensitivity parameters and states into the model, and evaluates the
derivatives. -/
def rhsUpdate (env : Env) (st : SimState) (tv : ℚ) (yv : List ℚ) : SimState :=
  let pacing := (st.pacingSys.zip st.pacing).map
    (fun p => if p.1.kind = PacingKind.fixed then p.1.level tv else p.2)
  let evals := st.evaluations + 1
  let m := Model_SetBoundVariables st.model tv pacing st.realtime (evals : ℚ)
  let m := if m.has_sensitivities then Model_SetParametersFromIndependents m st.udata_p else m
  let m := Model_SetStates m yv
  let m := Model_EvaluateDerivatives env.ops m
  { st with model := m, pacing := pacing, evaluations := evals }

/-- The zero-step limit `max_zero_step_count` (line 1611). -/
def max_zero_step_count : Nat := 500

/-- Translation of the zero-progress guard (lines 2731-2739): a zero-length
step increments the counter and fails once `++zero_step_count` reaches the
limit; a productive step resets the counter. -/
def zeroStepCheck (t tlast : ℚ) (count : Nat) : Option Nat :=
  if t = tlast then
    (if max_zero_step_count ≤ count + 1 then none else some (count + 1))
  else some 0

/-- Translation of the error-output writes (lines 2708-2711 and 2998-3001):
`PyList_SetItem(state_py, i, ...)` for `i < n`. -/
def writeFloats (dst src : List ℚ) (n : Nat) : List ℚ :=
  (List.range n).foldl (fun l i => l.set i (src.getD i 0)) dst

/-- Translation of the bound-variable output writes (lines 2712-2717 and
3014-3019): time, realtime, evaluations, then one entry per pacing value. -/
def writeBound (dst : List ℚ) (tv rt ev : ℚ) (pacing : List ℚ) : List ℚ :=
  let l := ((dst.set 0 tv).set 1 rt).set 2 ev
  (List.range pacing.length).foldl (fun l2 i => l2.set (3 + i) (pacing.getD i 0)) l

/-- Translation of the final-state writes after the loop (lines 2998-3019):
the current state and bound values are written to the caller's lists.  (The
sensitivity write-back is guarded by `has_sensitivities`, which is false for
this generated model, and is not modelled.) -/
def writeFinal (st : SimState) : SimState :=
  { st with
    state_py := writeFloats st.state_py st.y st.model.n_states
    bound_py := writeBound st.bound_py st.t st.realtime (st.evaluations : ℚ) st.pacing }

/-- Translation of the interpolated-logging loop `while (t > tlog)` (lines
2808-2887): interpolate the state to `tlog`, refresh the model via the RHS,
emit one log row (and a sensitivity row if enabled), and advance `tlog`
either periodically or from the point list.  The recursion is fuelled; fuel
exhaustion yields the artificial `fuelOut` error. -/
def logLoop (env : Env) (interp : ℚ → List ℚ) (interpS : ℚ → List (List ℚ)) :
    Nat → SimState → Except (ErrKind × SimState) SimState
  | 0, st => if st.tlog < st.t then .error (.fuelOut, st) else .ok st
  | fuel + 1, st =>
    if st.tlog < st.t then
      let z := if st.model.is_ode then interp st.tlog else st.y
      let st1 := rhsUpdate env st st.tlog z
      match Model_Log env.appendOk st1.model st1.logVars st1.sinks with
      | .error es =>
        .error ((match es.1 with
                 | .notInitialized => ErrKind.logNotInit
                 | .appendFailed => ErrKind.logAppend), { st1 with sinks := es.2 })
      | .ok ss =>
        let st2 := { st1 with sinks := ss, logTimes := st1.logTimes ++ [st1.model.time] }
        let st3 := if st2.model.has_sensitivities then
            { st2 with model := shs st2.model (interpS st2.tlog), sensRows := st2.sensRows + 1 }
          else st2
        if 0 < st3.log_interval then
          let ilog2 : Nat := st3.ilog + 1
          let tlog2 := st3.tmin + (ilog2 : ℚ) * st3.log_interval
          if ilog2 = 0 then .error (.countOverflow, st3)
          else logLoop env interp interpS fuel { st3 with ilog := ilog2, tlog := tlog2 }
        else
          match st3.log_times with
          | some lts =>
            if st3.ilog < lts.length then
              let tp := lts.getD st3.ilog 0
              if tp < st3.tlog then .error (.logTimesDecreasing, st3)
              else logLoop env interp interpS fuel { st3 with tlog := tp, ilog := st3.ilog + 1 }
            else logLoop env interp interpS fuel { st3 with tlog := st3.tmax + 1 }
          | none => logLoop env interp interpS fuel { st3 with tlog := st3.tmax + 1 }
    else .ok st

/-- Translation of the event-based pacing update (lines 2896-2908): advance
every event system to `t`, refresh its pacing value, and recompute `tnext`
as the minimum of `tmax` and the systems' next event times. -/
def pacingUpdate (st : SimState) : SimState :=
  let pacing := (st.pacingSys.zip st.pacing).map
    (fun p => if p.1.kind = PacingKind.event then p.1.level st.t else p.2)
  let tnext := (st.pacingSys.filter (fun ps => ps.kind = PacingKind.event)).foldl
    (fun a ps => min a (ps.nextTime st.t)) st.tmax
  { st with pacing := pacing, tnext := tnext }

/-- Translation of the dynamic-logging block (lines 2911-2946): refresh the
model (full RHS if derivatives, intermediaries or sensitivities are logged,
bound variables only if just bound variables are logged), then emit one log
row and, if enabled, one sensitivity row. -/
def dynLog (env : Env) (st : SimState) : Except (ErrKind × SimState) SimState :=
  let st :=
    if st.model.logging_derivatives || st.model.logging_intermediary || st.model.has_sensitivities then
      rhsUpdate env st st.t st.y
    else if st.model.logging_bound then
      { st with model := Model_SetBoundVariables st.model st.t st.pacing st.realtime (st.evaluations : ℚ) }
    else st
  match Model_Log env.appendOk st.model st.logVars st.sinks with
  | .error es =>
    .error ((match es.1 with
             | .notInitialized => ErrKind.logNotInit
             | .appendFailed => ErrKind.logAppend), { st with sinks := es.2 })
  | .ok ss =>
    let st := { st with sinks := ss, logTimes := st.logTimes ++ [st.model.time] }
    if st.model.has_sensitivities then
      .ok { st with model := shs st.model st.sy, sensRows := st.sensRows + 1 }
    else .ok st

/-- Outcome of one iteration of the `while(1)` loop in `sim_step`: continue
to the next iteration, break out with the final time (and the final-state
writes applied), or fail. -/
inductive IterOut
  | cont (st : SimState)
  | finished (t : ℚ) (st : SimState)
  | failed (e : ErrKind) (st : SimState)

/-- Translation of the rewind-or-root-handling block (lines 2750-2795): if
the integrator overshot `tnext`, interpolate the state (and sensitivities)
back to `tnext` and set `t` to it; otherwise fetch the sensitivities and, on
a root return, append `(t, direction)` to the root list.  (The root-list
append is modelled as infallible, and the `flag_reinit` it sets only affects
integrator internals, which the oracle stands for.) -/
def rewindRoot (st : SimState) (root : Bool) (dir : Int)
    (interp : ℚ → List ℚ) (interpS : ℚ → List (List ℚ)) : SimState :=
  if st.model.is_ode then
    if st.tnext < st.t then
      { st with y := interp st.tnext
                sy := if st.model.has_sensitivities then interpS st.tnext else st.sy
                t := st.tnext }
    else
      let st := if st.model.has_sensitivities then { st with sy := interpS st.t } else st
      if root then { st with rf_list := st.rf_list ++ [(st.t, dir)] } else st
  else st

/-- Translation of the termination check (lines 2962-2966) and the final
writes after the loop (lines 2998-3019): snap `t` to `tmax` when `ESys_eq`
considers them equal, break out (writing the final state and bound values)
when `t ≥ tmax`, and otherwise continue the loop. -/
def finishCheck (env : Env) (st : SimState) : IterOut :=
  let st := { st with t := if env.esys_eq st.t st.tmax then st.tmax else st.t }
  if st.tmax ≤ st.t then .finished st.t (writeFinal st)
  else .cont st

/-- Translation of the dynamic-logging step (lines 2911-2946) followed by
the termination check. -/
def stepDyn (env : Env) (st : SimState) : IterOut :=
  match (if st.dynamic_logging then dynLog env st else .ok st) with
  | .error es => .failed es.1 es.2
  | .ok st => finishCheck env st

/-- Translation of the interpolated-logging block (lines 2801-2888) followed
by the pacing update (lines 2896-2908) and the remaining stages. -/
def stepLog (env : Env) (st : SimState)
    (interp : ℚ → List ℚ) (interpS : ℚ → List (List ℚ)) : IterOut :=
  match (if !st.dynamic_logging && st.tlog < st.t
         then logLoop env interp interpS env.logFuel st else .ok st) with
  | .error es => .failed es.1 es.2
  | .ok st => stepDyn env (pacingUpdate st)

/-- Part of one loop iteration after the integrator call (lines 2731-3019):
zero-progress guard, step counting, rewind-or-root handling, interpolated
logging, pacing update, dynamic logging, and the termination check. -/
def stepTail (env : Env) (st0 : SimState) (root : Bool) (dir : Int)
    (interp : ℚ → List ℚ) (interpS : ℚ → List (List ℚ)) : IterOut :=
  match zeroStepCheck st0.t st0.tlast st0.zero_step_count with
  | none => .failed .zeroStep st0
  | some zc =>
    let st := { st0 with zero_step_count := zc, steps := st0.steps + 1 }
    stepLog env (rewindRoot st root dir interp interpS) interp interpS

/-- Translation of one iteration of the `while(1)` loop in `sim_step`
(lines 2687-2975): back up `y` and `t`, take one integrator step (consuming
one oracle outcome; on a negative flag the backup state and current bound
values are written to the caller's lists and the error surfaces), or in
CVODE-free mode jump to `min(tnext, tmax)`; then run the rest of the
iteration. -/
def stepIter (env : Env) (st0 : SimState) : IterOut :=
  let st := { st0 with ylast := st0.y, tlast := st0.t }
  if st.model.is_ode then
    match st.cvode with
    | [] => .failed .oracleOut st
    | CVodeOutcome.err flag :: rest =>
      let st := { st with cvode := rest }
      let st := { st with
        state_py := writeFloats st.state_py st.ylast st.model.n_states
        bound_py := writeBound st.bound_py st.tlast st.realtime (st.evaluations : ℚ) st.pacing }
      .failed (.integrator flag) st
    | CVodeOutcome.ok cs :: rest =>
      let st := { st with cvode := rest, t := cs.t, y := cs.y }
      stepTail env st cs.root cs.rootDir cs.interp cs.interpS
  else
    let st := { st with t := if st.tnext < st.tmax then st.tnext else st.tmax }
    stepTail env st false 0 (fun _ => st.y) (fun _ => st.sy)

/-- The `while(1)` loop of `sim_step` run for at most `n` iterations: when
the step budget is exhausted the driver performs the cooperative yield
(lines 2980-2987), returning the current time.  `sim_step` itself uses a
budget of 100. -/
def loopN (env : Env) : Nat → SimState → StepResult × SimState
  | 0, st => (.yield st.t, st)
  | n + 1, st =>
    match stepIter env st with
    | .cont st2 => loopN env n st2
    | .finished t st2 => (.done t, st2)
    | .failed e st2 => (.error e, st2)

/-- Translation of `sim_step` (lines 2651-3027): each host call runs the
loop with a fresh budget of 100 integrator steps. -/
def sim_step (env : Env) (st : SimState) : StepResult × SimState :=
  loopN env 100 st

/-- The final state carried by an iteration outcome. -/
def IterOut.state : IterOut → SimState
  | .cont st => st
  | .finished _ st => st
  | .failed _ st => st

/-- Reads `n` floats off a Python list, failing (as `PyList_GetItem` plus
`PyFloat_Check` do) when the list is too short. -/
def readFloats (l : List ℚ) (n : Nat) : Option (List ℚ) :=
  if n ≤ l.length then some (l.take n) else none

/-- Translation of `sim_eval_derivatives` (lines 3032-3185).  Note that the
number of pacing values read from `pace_in` is the module-level global
`n_pace` (line 3103 and the loop at 3110-3118), which is whatever value the
last `sim_init` left behind (`sim_clean` does not reset it); it is passed
here as an explicit argument. -/
def sim_eval_derivatives (ops : MathOps) (junk : ℚ) (n_pace : Nat)
    (time_in : ℚ) (pace_in : List ℚ) (state : List ℚ)
    (literals : List ℚ) (parameters : List ℚ) : Except Unit (List ℚ) :=
  let m := Model_Create ops junk
  let m := Model_SetupPacing m n_pace
  match readFloats pace_in n_pace with
  | none => .error ()
  | some pacing_in =>
  let m := Model_SetBoundVariables m time_in pacing_in 0 0
  match readFloats literals m.n_literals with
  | none => .error ()
  | some lits =>
  let m := { m with literals := lits }
  let m := Model_EvaluateLiteralDerivedVariables ops m
  match readFloats parameters m.n_parameters with
  | none => .error ()
  | some ps =>
  let m := { m with parameters := ps }
  let m := Model_EvaluateParameterDerivedVariables m
  match readFloats state m.n_states with
  | none => .error ()
  | some sts =>
  let m := { m with states := sts }
  let m := Model_EvaluateDerivatives ops m
  .ok (m.derivatives.take m.n_states)

/-!  Helper lemmas.  The small `@[simp]` lemmas below record which model
fields each model operation leaves untouched; they are all definitional. -/

/-- The error kind of a failing iteration outcome, if any. -/
def IterOut.err : IterOut → Option ErrKind
  | .failed e _ => some e
  | _ => none

/-- Invariant of a periodic-logging run over `[m0, T0]` with interval `d`:
dynamic logging is off, the bounds and interval are fixed, the next halting
point is bounded, the cursor is consistent, the trace holds exactly the
periodic points logged so far, and all of them lie strictly below `T0`. -/
def PerInv (T0 m0 d : ℚ) (st : SimState) : Prop :=
  st.dynamic_logging = false ∧ st.log_interval = d ∧ st.tmin = m0 ∧ st.tmax = T0 ∧
  st.tnext ≤ T0 ∧ st.tlog = m0 + (st.ilog : ℚ) * d ∧
  st.logTimes = (List.range st.ilog).map (fun (i : Nat) => m0 + (i : ℚ) * d) ∧
  ∀ i : Nat, i < st.ilog → m0 + (i : ℚ) * d < T0

/-! Concrete fixtures: a trivial math-operations record, environments, a
model instance, oracle steps and driver states used to exercise the
definitions on closed inputs. -/

/-- Math operations that return zero everywhere; the driver logic under test
does not depend on their values. -/
def fxOps : MathOps := ⟨fun _ => 0, fun _ => 0, fun _ => 0, fun _ _ => 0⟩

/-- Environment with exact equality for `ESys_eq` and always-succeeding
appends. -/
def fxEnv : Env := ⟨fxOps, fun a b => a == b, fun _ _ => true, 1000⟩

/-- The generated model with logging initialised for no variables. -/
def fxModel : Model := Model_InitializeLogging (Model_Create fxOps 0) []

/-- A constant dense interpolant. -/
def fxInterp : ℚ → List ℚ := fun _ => (Model_Create fxOps 0).states

/-- A successful root-free oracle step landing at time `tv`. -/
def fxStep (tv : ℚ) : CVodeStep :=
  ⟨false, 0, tv, (Model_Create fxOps 0).states, [], fxInterp, fun _ => []⟩

/-- A baseline driver state over `[0, 1]` with periodic interval 1. -/
def fxBase : SimState := {
  model := fxModel
  pacingSys := []
  pacing := []
  udata_p := []
  cvode := []
  y := fxModel.states
  ylast := []
  sy := []
  t := 0, tlast := 0, tnext := 1, tmin := 0, tmax := 1
  dynamic_logging := false
  log_interval := 1
  log_times := none
  tlog := 0, ilog := 0
  logVars := []
  sinks := []
  logTimes := []
  sensRows := 0
  rf_list := []
  zero_step_count := 0
  steps := 0
  evaluations := 0
  realtime := 0
  state_py := List.replicate 8 9
  bound_py := List.replicate 3 9 }

/-- A run over `[0, 1]` with interval 1 and one oracle step to `t = 1`. -/
def fxC3 : SimState := { fxBase with cvode := [.ok (fxStep 1)] }

/-- A run over `[0, 3]` with interval 2 and one oracle step to `t = 3`. -/
def fxC3b : SimState :=
  { fxBase with tmax := 3, tnext := 3, log_interval := 2, cvode := [.ok (fxStep 3)] }

/-- A state one zero-length step away from the zero-step limit. -/
def fxC1 : SimState := { fxBase with zero_step_count := 499, cvode := [.ok (fxStep 0)] }

/-- A state whose next oracle outcome is an integrator failure. -/
def fxC1b : SimState :=
  { fxBase with cvode := [.err (-4)], y := List.replicate 8 7, t := 22, realtime := 0,
                evaluations := 5, pacing := [3],
                pacingSys := [⟨.event, fun _ => 3, fun _ => 100⟩],
                bound_py := List.replicate 4 9 }

/-- A dynamic-logging run over `[0, 10]` completing in one oracle step. -/
def fxC6 : SimState :=
  { fxBase with dynamic_logging := true, log_interval := 0, tmax := 10, tnext := 10,
                cvode := [.ok (fxStep 10)] }

/-- The generated model with two state variables bound for logging. -/
def fxModel8 : Model :=
  Model_InitializeLogging (Model_Create fxOps 0) [.stateVar 0, .stateVar 1]

/-- Environment whose append oracle succeeds only for the first sink. -/
def fxEnv8 : Env := ⟨fxOps, fun a b => a == b, fun i _ => i == 0, 1000⟩

/-- A dynamic-logging run with two sinks. -/
def fxC8 : SimState :=
  { fxBase with model := fxModel8, dynamic_logging := true, log_interval := 0,
                tmax := 10, tnext := 10, cvode := [.ok (fxStep 5)],
                logVars := [.stateVar 0, .stateVar 1], sinks := [[], []] }

/-- `n` successful oracle steps at times `1/1000, 2/1000, …`. -/
def fxSteps : Nat → List CVodeOutcome :=
  fun n => (List.range n).map (fun i => .ok (fxStep ((i + 1 : ℚ) / 1000)))

/-- A run with 150 pending oracle steps, far from `tmax`. -/
def fxC5 : SimState :=
  { fxBase with dynamic_logging := true, log_interval := 0, tmax := 10, tnext := 10,
                cvode := fxSteps 150 }

/-- The state carried by a logging-stage outcome, whether successful or
failed. -/
def exceptState : Except (ErrKind × SimState) SimState → SimState
  | .ok s => s
  | .error es => es.2

/-- Fields of the driver state the inner logging loop and the dynamic
logging block leave untouched. -/
def LogFrame (a b : SimState) : Prop :=
  b.t = a.t ∧ b.tnext = a.tnext ∧ b.tmin = a.tmin ∧ b.tmax = a.tmax ∧
  b.dynamic_logging = a.dynamic_logging ∧ b.log_interval = a.log_interval ∧
  b.cvode = a.cvode ∧ b.zero_step_count = a.zero_step_count ∧
  b.state_py = a.state_py ∧ b.bound_py = a.bound_py ∧ b.logVars = a.logVars

/-- All sinks of `b` are longer than those of `a` by exactly `d`. -/
def SinkGrowth (a b : List (List ℚ)) (d : Nat) : Prop :=
  b.map List.length = a.map (fun s => s.length + d)

/-- Fields preserved while a logging stage runs, together with the sink
growth property: the logging bindings are untouched, and if bindings and
sinks have matching lengths then every sink grows by the same amount. -/
def GrowOk (a b : SimState) : Prop :=
  b.logVars = a.logVars ∧
  (a.logVars.length = a.sinks.length →
    (b.logVars.length = b.sinks.length ∧ ∃ d, SinkGrowth a.sinks b.sinks d))

/-- With sensitivities disabled the logging stages keep the disabled flag
and never touch the sensitivity row count. -/
def SensFrame (a b : SimState) : Prop :=
  a.model.has_sensitivities = false →
    (b.sensRows = a.sensRows ∧ b.model.has_sensitivities = false)

/-- Fields of the driver state one whole loop iteration never changes. -/
def IterFrame (a b : SimState) : Prop :=
  b.tmin = a.tmin ∧ b.tmax = a.tmax ∧ b.dynamic_logging = a.dynamic_logging ∧
  b.log_interval = a.log_interval ∧ b.logVars = a.logVars ∧ b.cvode = a.cvode

@[simp] lemma evalLitDeriv_time (ops : MathOps) (m : Model) :
    (Model_EvaluateLiteralDerivedVariables ops m).time = m.time := rfl

@[simp] lemma evalLitDeriv_hasSens (ops : MathOps) (m : Model) :
    (Model_EvaluateLiteralDerivedVariables ops m).has_sensitivities = m.has_sensitivities := rfl

@[simp] lemma evalLitDeriv_isOde (ops : MathOps) (m : Model) :
    (Model_EvaluateLiteralDerivedVariables ops m).is_ode = m.is_ode := rfl

@[simp] lemma evalParamDeriv_eq (m : Model) :
    Model_EvaluateParameterDerivedVariables m = m := rfl

@[simp] lemma setParamsInd_time (m : Model) (ind : List ℚ) :
    (Model_SetParametersFromIndependents m ind).time = m.time := rfl

@[simp] lemma setParamsInd_hasSens (m : Model) (ind : List ℚ) :
    (Model_SetParametersFromIndependents m ind).has_sensitivities = m.has_sensitivities := rfl

@[simp] lemma setParamsInd_isOde (m : Model) (ind : List ℚ) :
    (Model_SetParametersFromIndependents m ind).is_ode = m.is_ode := rfl

@[simp] lemma setParamsInd_logInit (m : Model) (ind : List ℚ) :
    (Model_SetParametersFromIndependents m ind).logging_initialized = m.logging_initialized := rfl

@[simp] lemma setBound_time (m : Model) (tv : ℚ) (p : List ℚ) (rt ev : ℚ) :
    (Model_SetBoundVariables m tv p rt ev).time = tv := rfl

@[simp] lemma setBound_hasSens (m : Model) (tv : ℚ) (p : List ℚ) (rt ev : ℚ) :
    (Model_SetBoundVariables m tv p rt ev).has_sensitivities = m.has_sensitivities := rfl

@[simp] lemma setBound_isOde (m : Model) (tv : ℚ) (p : List ℚ) (rt ev : ℚ) :
    (Model_SetBoundVariables m tv p rt ev).is_ode = m.is_ode := rfl

@[simp] lemma setBound_logInit (m : Model) (tv : ℚ) (p : List ℚ) (rt ev : ℚ) :
    (Model_SetBoundVariables m tv p rt ev).logging_initialized = m.logging_initialized := rfl

@[simp] lemma setStates_time (m : Model) (s : List ℚ) :
    (Model_SetStates m s).time = m.time := rfl

@[simp] lemma setStates_hasSens (m : Model) (s : List ℚ) :
    (Model_SetStates m s).has_sensitivities = m.has_sensitivities := rfl

@[simp] lemma setStates_isOde (m : Model) (s : List ℚ) :
    (Model_SetStates m s).is_ode = m.is_ode := rfl

@[simp] lemma setStates_logInit (m : Model) (s : List ℚ) :
    (Model_SetStates m s).logging_initialized = m.logging_initialized := rfl

@[simp] lemma evalDeriv_time (ops : MathOps) (m : Model) :
    (Model_EvaluateDerivatives ops m).time = m.time := rfl

@[simp] lemma evalDeriv_hasSens (ops : MathOps) (m : Model) :
    (Model_EvaluateDerivatives ops m).has_sensitivities = m.has_sensitivities := rfl

@[simp] lemma evalDeriv_isOde (ops : MathOps) (m : Model) :
    (Model_EvaluateDerivatives ops m).is_ode = m.is_ode := rfl

@[simp] lemma evalDeriv_logInit (ops : MathOps) (m : Model) :
    (Model_EvaluateDerivatives ops m).logging_initialized = m.logging_initialized := rfl

@[simp] lemma shs_time (m : Model) (syv : List (List ℚ)) : (shs m syv).time = m.time := rfl

@[simp] lemma shs_hasSens (m : Model) (syv : List (List ℚ)) :
    (shs m syv).has_sensitivities = m.has_sensitivities := rfl

@[simp] lemma shs_isOde (m : Model) (syv : List (List ℚ)) : (shs m syv).is_ode = m.is_ode := rfl

@[simp] lemma shs_logInit (m : Model) (syv : List (List ℚ)) :
    (shs m syv).logging_initialized = m.logging_initialized := rfl

/-- The model reached by the RHS helper keeps its structural flags, and its
time is the time the RHS was called at. -/
lemma rhsUpdate_model_flags (env : Env) (st : SimState) (tv : ℚ) (yv : List ℚ) :
    (rhsUpdate env st tv yv).model.time = tv ∧
    (rhsUpdate env st tv yv).model.is_ode = st.model.is_ode ∧
    (rhsUpdate env st tv yv).model.has_sensitivities = st.model.has_sensitivities ∧
    (rhsUpdate env st tv yv).model.logging_initialized = st.model.logging_initialized := by
  simp only [rhsUpdate, evalDeriv_time, evalDeriv_hasSens, evalDeriv_isOde, evalDeriv_logInit,
    setStates_time, setStates_hasSens, setStates_isOde, setStates_logInit]
  split <;>
    simp [setParamsInd_time, setParamsInd_hasSens, setParamsInd_isOde, setParamsInd_logInit]

@[simp] lemma exceptState_ok (s : SimState) : exceptState (.ok s) = s := rfl

@[simp] lemma exceptState_error (es : ErrKind × SimState) : exceptState (.error es) = es.2 := rfl

@[simp] lemma rhsUpdate_t (env : Env) (st : SimState) (tv : ℚ) (yv : List ℚ) :
    (rhsUpdate env st tv yv).t = st.t := rfl

@[simp] lemma rhsUpdate_tlast (env : Env) (st : SimState) (tv : ℚ) (yv : List ℚ) :
    (rhsUpdate env st tv yv).tlast = st.tlast := rfl

@[simp] lemma rhsUpdate_tnext (env : Env) (st : SimState) (tv : ℚ) (yv : List ℚ) :
    (rhsUpdate env st tv yv).tnext = st.tnext := rfl

@[simp] lemma rhsUpdate_tmin (env : Env) (st : SimState) (tv : ℚ) (yv : List ℚ) :
    (rhsUpdate env st tv yv).tmin = st.tmin := rfl

@[simp] lemma rhsUpdate_tmax (env : Env) (st : SimState) (tv : ℚ) (yv : List ℚ) :
    (rhsUpdate env st tv yv).tmax = st.tmax := rfl

@[simp] lemma rhsUpdate_dynamic (env : Env) (st : SimState) (tv : ℚ) (yv : List ℚ) :
    (rhsUpdate env st tv yv).dynamic_logging = st.dynamic_logging := rfl

@[simp] lemma rhsUpdate_logInterval (env : Env) (st : SimState) (tv : ℚ) (yv : List ℚ) :
    (rhsUpdate env st tv yv).log_interval = st.log_interval := rfl

@[simp] lemma rhsUpdate_logTimesList (env : Env) (st : SimState) (tv : ℚ) (yv : List ℚ) :
    (rhsUpdate env st tv yv).log_times = st.log_times := rfl

@[simp] lemma rhsUpdate_cvode (env : Env) (st : SimState) (tv : ℚ) (yv : List ℚ) :
    (rhsUpdate env st tv yv).cvode = st.cvode := rfl

@[simp] lemma rhsUpdate_zeroCount (env : Env) (st : SimState) (tv : ℚ) (yv : List ℚ) :
    (rhsUpdate env st tv yv).zero_step_count = st.zero_step_count := rfl

@[simp] lemma rhsUpdate_statePy (env : Env) (st : SimState) (tv : ℚ) (yv : List ℚ) :
    (rhsUpdate env st tv yv).state_py = st.state_py := rfl

@[simp] lemma rhsUpdate_boundPy (env : Env) (st : SimState) (tv : ℚ) (yv : List ℚ) :
    (rhsUpdate env st tv yv).bound_py = st.bound_py := rfl

@[simp] lemma rhsUpdate_logVars (env : Env) (st : SimState) (tv : ℚ) (yv : List ℚ) :
    (rhsUpdate env st tv yv).logVars = st.logVars := rfl

@[simp] lemma rhsUpdate_tlog (env : Env) (st : SimState) (tv : ℚ) (yv : List ℚ) :
    (rhsUpdate env st tv yv).tlog = st.tlog := rfl

@[simp] lemma rhsUpdate_ilog (env : Env) (st : SimState) (tv : ℚ) (yv : List ℚ) :
    (rhsUpdate env st tv yv).ilog = st.ilog := rfl

@[simp] lemma rhsUpdate_logTimes (env : Env) (st : SimState) (tv : ℚ) (yv : List ℚ) :
    (rhsUpdate env st tv yv).logTimes = st.logTimes := rfl

@[simp] lemma rhsUpdate_sinks (env : Env) (st : SimState) (tv : ℚ) (yv : List ℚ) :
    (rhsUpdate env st tv yv).sinks = st.sinks := rfl

@[simp] lemma rhsUpdate_sensRows (env : Env) (st : SimState) (tv : ℚ) (yv : List ℚ) :
    (rhsUpdate env st tv yv).sensRows = st.sensRows := rfl

@[simp] lemma rhsUpdate_y (env : Env) (st : SimState) (tv : ℚ) (yv : List ℚ) :
    (rhsUpdate env st tv yv).y = st.y := rfl

@[simp] lemma rhsUpdate_ylast (env : Env) (st : SimState) (tv : ℚ) (yv : List ℚ) :
    (rhsUpdate env st tv yv).ylast = st.ylast := rfl

@[simp] lemma rhsUpdate_sy (env : Env) (st : SimState) (tv : ℚ) (yv : List ℚ) :
    (rhsUpdate env st tv yv).sy = st.sy := rfl

@[simp] lemma rhsUpdate_steps (env : Env) (st : SimState) (tv : ℚ) (yv : List ℚ) :
    (rhsUpdate env st tv yv).steps = st.steps := rfl

@[simp] lemma rhsUpdate_pacingSys (env : Env) (st : SimState) (tv : ℚ) (yv : List ℚ) :
    (rhsUpdate env st tv yv).pacingSys = st.pacingSys := rfl

@[simp] lemma rhsUpdate_udata (env : Env) (st : SimState) (tv : ℚ) (yv : List ℚ) :
    (rhsUpdate env st tv yv).udata_p = st.udata_p := rfl

@[simp] lemma rhsUpdate_rfList (env : Env) (st : SimState) (tv : ℚ) (yv : List ℚ) :
    (rhsUpdate env st tv yv).rf_list = st.rf_list := rfl

@[simp] lemma rhsUpdate_realtime (env : Env) (st : SimState) (tv : ℚ) (yv : List ℚ) :
    (rhsUpdate env st tv yv).realtime = st.realtime := rfl

lemma logFrame_rfl (a : SimState) : LogFrame a a :=
  ⟨rfl, rfl, rfl, rfl, rfl, rfl, rfl, rfl, rfl, rfl, rfl⟩

lemma logFrame_trans {a b c : SimState} (h1 : LogFrame a b) (h2 : LogFrame b c) :
    LogFrame a c := by
  obtain ⟨a1, a2, a3, a4, a5, a6, a7, a8, a9, a10, a11⟩ := h1
  obtain ⟨b1, b2, b3, b4, b5, b6, b7, b8, b9, b10, b11⟩ := h2
  exact ⟨b1.trans a1, b2.trans a2, b3.trans a3, b4.trans a4, b5.trans a5, b6.trans a6,
    b7.trans a7, b8.trans a8, b9.trans a9, b10.trans a10, b11.trans a11⟩

/-- The inner logging loop preserves the `LogFrame` fields, whether it
succeeds or fails. -/
lemma logLoop_frame (env : Env) (interp : ℚ → List ℚ) (interpS : ℚ → List (List ℚ)) :
    ∀ fuel st, LogFrame st (exceptState (logLoop env interp interpS fuel st)) := by
  intro fuel
  induction fuel with
  | zero =>
    intro st
    simp only [logLoop]
    split <;> exact logFrame_rfl _
  | succ fuel ih =>
    intro st
    simp only [logLoop]
    repeat' split
    all_goals
      first
      | exact logFrame_trans (by
          simp [LogFrame, apply_ite SimState.t, apply_ite SimState.tnext,
            apply_ite SimState.tmin, apply_ite SimState.tmax,
            apply_ite SimState.dynamic_logging, apply_ite SimState.log_interval,
            apply_ite SimState.cvode, apply_ite SimState.zero_step_count,
            apply_ite SimState.state_py, apply_ite SimState.bound_py,
            apply_ite SimState.logVars]) (ih _)
      | (simp [LogFrame, apply_ite SimState.t, apply_ite SimState.tnext,
          apply_ite SimState.tmin, apply_ite SimState.tmax,
          apply_ite SimState.dynamic_logging, apply_ite SimState.log_interval,
          apply_ite SimState.cvode, apply_ite SimState.zero_step_count,
          apply_ite SimState.state_py, apply_ite SimState.bound_py,
          apply_ite SimState.logVars]
         <;> done)

/-- Error kinds the inner logging loop can produce. -/
lemma logLoop_errKinds (env : Env) (interp : ℚ → List ℚ) (interpS : ℚ → List (List ℚ)) :
    ∀ fuel st e s2, logLoop env interp interpS fuel st = .error (e, s2) →
      e = .fuelOut ∨ e = .logNotInit ∨ e = .logAppend ∨ e = .countOverflow ∨
      e = .logTimesDecreasing := by
  intro fuel
  induction fuel with
  | zero =>
    intro st e s2 h
    simp only [logLoop] at h
    split at h <;> simp_all
  | succ fuel ih =>
    intro st e s2 h
    simp only [logLoop] at h
    repeat' split at h
    all_goals first
      | exact ih _ _ _ h
      | simp_all

/-- Error kinds the dynamic logging block can produce. -/
lemma dynLog_errKinds (env : Env) (st : SimState) (e : ErrKind) (s2 : SimState) :
    dynLog env st = .error (e, s2) → e = .logNotInit ∨ e = .logAppend := by
  intro h
  simp only [dynLog] at h
  repeat' split at h
  all_goals simp_all

/-- The dynamic logging block preserves the `LogFrame` fields. -/
lemma dynLog_frame (env : Env) (st : SimState) :
    LogFrame st (exceptState (dynLog env st)) := by
  simp only [dynLog]
  repeat' split
  all_goals
    simp [LogFrame, apply_ite SimState.t, apply_ite SimState.tnext,
      apply_ite SimState.tmin, apply_ite SimState.tmax,
      apply_ite SimState.dynamic_logging, apply_ite SimState.log_interval,
      apply_ite SimState.cvode, apply_ite SimState.zero_step_count,
      apply_ite SimState.state_py, apply_ite SimState.bound_py,
      apply_ite SimState.logVars]

/-- When every append succeeds, `modelLogGo` appends the value of each
variable to its sink. -/
lemma modelLogGo_allOk (ok : Nat → Nat → Bool) (m : Model)
    (hok : ∀ i n, ok i n = true) :
    ∀ prs i, modelLogGo ok m i prs = .ok (prs.map (fun p => p.2 ++ [readLogVar m p.1])) := by
  intro prs
  induction prs with
  | nil => intro i; rfl
  | cons p rest ih =>
    intro i
    obtain ⟨v, s⟩ := p
    simp only [modelLogGo, hok, if_true, ih, List.map_cons]

/-- `Model_Log` with logging not initialised fails without touching the
sinks. -/
lemma Model_Log_notInit (ok : Nat → Nat → Bool) (m : Model) (vars : List LogVar)
    (sinks : List (List ℚ)) (h : m.logging_initialized = false) :
    Model_Log ok m vars sinks = .error (.notInitialized, sinks) := by
  simp [Model_Log, h]

lemma sinkGrowth_zero (a : List (List ℚ)) : SinkGrowth a a 0 := by simp [SinkGrowth]

lemma sinkGrowth_trans {a b c : List (List ℚ)} {d e : Nat}
    (h1 : SinkGrowth a b d) (h2 : SinkGrowth b c e) : SinkGrowth a c (d + e) := by
  unfold SinkGrowth at *
  have hb : b.map (fun s => s.length + e) = (b.map List.length).map (fun n => n + e) := by
    simp [List.map_map, Function.comp]
  rw [h2, hb, h1]
  simp [List.map_map, Function.comp, Nat.add_assoc]

lemma sinkGrowth_length {a b : List (List ℚ)} {d : Nat} (h : SinkGrowth a b d) :
    b.length = a.length := by
  have := congrArg List.length h
  simpa using this

/-- One all-ok `Model_Log` call grows every sink by one. -/
lemma modelLog_result_growth (m : Model) (vars : List LogVar)
    (sinks : List (List ℚ)) (hlen : vars.length = sinks.length) :
    SinkGrowth sinks ((vars.zip sinks).map (fun p => p.2 ++ [readLogVar m p.1])) 1 := by
  unfold SinkGrowth
  induction vars generalizing sinks with
  | nil => cases sinks with
    | nil => rfl
    | cons s ss => simp at hlen
  | cons v vs ih =>
    cases sinks with
    | nil => simp at hlen
    | cons s ss =>
      simp only [List.zip_cons_cons, List.map_cons, List.length_append, List.length_cons,
        List.length_nil]
      refine congrArg₂ _ rfl ?_
      exact ih ss (by simpa using hlen)

@[simp] lemma rhsUpdate_model_time (env : Env) (st : SimState) (tv : ℚ) (yv : List ℚ) :
    (rhsUpdate env st tv yv).model.time = tv :=
  (rhsUpdate_model_flags env st tv yv).1

@[simp] lemma rhsUpdate_model_isOde (env : Env) (st : SimState) (tv : ℚ) (yv : List ℚ) :
    (rhsUpdate env st tv yv).model.is_ode = st.model.is_ode :=
  (rhsUpdate_model_flags env st tv yv).2.1

@[simp] lemma rhsUpdate_model_hasSens (env : Env) (st : SimState) (tv : ℚ) (yv : List ℚ) :
    (rhsUpdate env st tv yv).model.has_sensitivities = st.model.has_sensitivities :=
  (rhsUpdate_model_flags env st tv yv).2.2.1

@[simp] lemma rhsUpdate_model_logInit (env : Env) (st : SimState) (tv : ℚ) (yv : List ℚ) :
    (rhsUpdate env st tv yv).model.logging_initialized = st.model.logging_initialized :=
  (rhsUpdate_model_flags env st tv yv).2.2.2

/-- When every append succeeds and logging is initialised, `Model_Log`
appends one value to every bound sink and keeps any unbound trailing
sinks. -/
lemma Model_Log_allOk (ok : Nat → Nat → Bool) (m : Model) (vars : List LogVar)
    (sinks : List (List ℚ)) (hok : ∀ i n, ok i n = true)
    (hinit : m.logging_initialized = true) :
    Model_Log ok m vars sinks =
      .ok ((vars.zip sinks).map (fun p => p.2 ++ [readLogVar m p.1]) ++
        sinks.drop vars.length) := by
  simp only [Model_Log, hinit, Bool.not_true, Bool.false_eq_true, if_false,
    modelLogGo_allOk ok m hok]

lemma growOk_rfl (a : SimState) : GrowOk a a :=
  ⟨rfl, fun hlen => ⟨hlen, 0, sinkGrowth_zero _⟩⟩

lemma growOk_trans {a b c : SimState} (h1 : GrowOk a b) (h2 : GrowOk b c) : GrowOk a c := by
  obtain ⟨hv1, hr1⟩ := h1
  obtain ⟨hv2, hr2⟩ := h2
  refine ⟨hv2.trans hv1, fun hlen => ?_⟩
  obtain ⟨hbl, d1, hg1⟩ := hr1 hlen
  obtain ⟨hcl, d2, hg2⟩ := hr2 hbl
  exact ⟨hcl, d1 + d2, sinkGrowth_trans hg1 hg2⟩

/-- The inner logging loop grows every sink by the same amount when all
appends succeed. -/
lemma logLoop_grow (env : Env) (interp : ℚ → List ℚ) (interpS : ℚ → List (List ℚ))
    (hok : ∀ i n, env.appendOk i n = true) :
    ∀ fuel st, GrowOk st (exceptState (logLoop env interp interpS fuel st)) := by
  intro fuel
  induction fuel with
  | zero =>
    intro st
    simp only [logLoop]
    split <;> exact growOk_rfl _
  | succ fuel ih =>
    intro st
    simp only [logLoop]
    split
    case isFalse => exact growOk_rfl _
    case isTrue hcond =>
      cases hinit : st.model.logging_initialized with
      | false =>
        rw [Model_Log_notInit _ _ _ _ (by simpa using hinit)]
        dsimp only
        exact ⟨rfl, fun hlen => ⟨hlen, 0, sinkGrowth_zero _⟩⟩
      | true =>
        rw [Model_Log_allOk _ _ _ _ hok (by simpa using hinit)]
        dsimp only
        repeat' split
        all_goals
          first
          | exact growOk_trans (by
              refine ⟨rfl, fun hlen => ⟨?_, 1, ?_⟩⟩
              · simp [List.length_zip, hlen.symm]
              · have hdrop : st.sinks.drop st.logVars.length = ([] : List (List ℚ)) :=
                  List.drop_eq_nil_of_le (le_of_eq hlen.symm)
                simpa [hdrop] using modelLog_result_growth _ st.logVars st.sinks hlen) (ih _)
          | (refine ⟨rfl, fun hlen => ⟨?_, 1, ?_⟩⟩
             · simp [List.length_zip, hlen.symm]
             · have hdrop : st.sinks.drop st.logVars.length = ([] : List (List ℚ)) :=
                 List.drop_eq_nil_of_le (le_of_eq hlen.symm)
               simpa [hdrop] using modelLog_result_growth _ st.logVars st.sinks hlen)

/-- The dynamic-logging block grows every sink by the same amount when all
appends succeed. -/
lemma dynLog_grow (env : Env) (st : SimState)
    (hok : ∀ i n, env.appendOk i n = true) :
    GrowOk st (exceptState (dynLog env st)) := by
  simp only [dynLog]
  cases hinit : st.model.logging_initialized with
  | false =>
    rw [Model_Log_notInit _ _ _ _ (by
      simp [apply_ite Model.logging_initialized, apply_ite SimState.model, hinit])]
    dsimp only
    refine ⟨?_, fun hlen => ⟨?_, 0, ?_⟩⟩
    · simp [apply_ite SimState.logVars]
    · simpa [apply_ite SimState.logVars, apply_ite SimState.sinks] using hlen
    · simpa [apply_ite SimState.sinks] using sinkGrowth_zero st.sinks
  | true =>
    rw [Model_Log_allOk _ _ _ _ hok (by
      simp [apply_ite Model.logging_initialized, apply_ite SimState.model, hinit])]
    dsimp only
    repeat' split
    all_goals
      refine ⟨?_, fun hlen => ⟨?_, 1, ?_⟩⟩ <;>
        first
        | (simp [apply_ite SimState.logVars, apply_ite SimState.sinks,
            List.length_zip, hlen.symm] <;> done)
        | (simp [apply_ite SimState.logVars] <;> done)
        | (have hdrop : st.sinks.drop st.logVars.length = ([] : List (List ℚ)) :=
             List.drop_eq_nil_of_le (le_of_eq hlen.symm)
           simpa [apply_ite SimState.sinks, apply_ite SimState.logVars,
             apply_ite SimState.model, hdrop]
             using modelLog_result_growth _ st.logVars st.sinks hlen)

lemma sensFrame_rfl (a : SimState) : SensFrame a a := fun h => ⟨rfl, h⟩

lemma sensFrame_trans {a b c : SimState} (h1 : SensFrame a b) (h2 : SensFrame b c) :
    SensFrame a c := by
  intro ha
  obtain ⟨hb1, hb2⟩ := h1 ha
  obtain ⟨hc1, hc2⟩ := h2 hb2
  exact ⟨hc1.trans hb1, hc2⟩

/-- The inner logging loop satisfies `SensFrame`. -/
lemma logLoop_sens (env : Env) (interp : ℚ → List ℚ) (interpS : ℚ → List (List ℚ)) :
    ∀ fuel st, SensFrame st (exceptState (logLoop env interp interpS fuel st)) := by
  intro fuel
  induction fuel with
  | zero =>
    intro st
    simp only [logLoop]
    split <;> exact sensFrame_rfl _
  | succ fuel ih =>
    intro st
    simp only [logLoop]
    repeat' split
    all_goals
      first
      | exact sensFrame_trans (by
          intro ha
          constructor <;>
            simp_all [apply_ite SimState.sensRows, apply_ite SimState.model,
              apply_ite Model.has_sensitivities]) (ih _)
      | (intro ha
         constructor <;>
           simp_all [apply_ite SimState.sensRows, apply_ite SimState.model,
             apply_ite Model.has_sensitivities])

/-- The dynamic-logging block satisfies `SensFrame`. -/
lemma dynLog_sens (env : Env) (st : SimState) :
    SensFrame st (exceptState (dynLog env st)) := by
  simp only [dynLog]
  repeat' split
  all_goals
    intro ha
    constructor <;>
      simp_all [apply_ite SimState.sensRows, apply_ite SimState.model,
        apply_ite Model.has_sensitivities]

/-- A successful inner logging loop leaves the `LogFrame` fields intact. -/
lemma logLoop_frame_ok {env : Env} {interp : ℚ → List ℚ} {interpS : ℚ → List (List ℚ)}
    {fuel : Nat} {st st2 : SimState}
    (h : logLoop env interp interpS fuel st = .ok st2) : LogFrame st st2 := by
  have hf := logLoop_frame env interp interpS fuel st
  rw [h] at hf
  exact hf

set_option maxHeartbeats 2000000 in
/-- Behaviour of the inner logging loop in periodic mode: starting from a
cursor consistent with `tlog = tmin + ilog * interval` and a trace holding
exactly the first `ilog` periodic points, a successful run leaves the cursor
consistent, extends the trace to exactly the first `ilog'` periodic points,
stops with `t ≤ tlog'`, and every newly logged point lies strictly below
`t`. -/
lemma logLoop_periodic (env : Env) (interp : ℚ → List ℚ) (interpS : ℚ → List (List ℚ)) :
    ∀ fuel st st2, 0 < st.log_interval →
      st.tlog = st.tmin + (st.ilog : ℚ) * st.log_interval →
      st.logTimes = (List.range st.ilog).map (fun (i : Nat) => st.tmin + (i : ℚ) * st.log_interval) →
      logLoop env interp interpS fuel st = .ok st2 →
      (st2.tlog = st2.tmin + (st2.ilog : ℚ) * st2.log_interval ∧
       st2.logTimes = (List.range st2.ilog).map (fun (i : Nat) => st2.tmin + (i : ℚ) * st2.log_interval) ∧
       st.ilog ≤ st2.ilog ∧
       st2.t ≤ st2.tlog ∧
       ∀ i, st.ilog ≤ i → i < st2.ilog →
         st2.tmin + (i : ℚ) * st2.log_interval < st2.t) := by
  intro fuel
  induction fuel with
  | zero =>
    intro st st2 hd htlog hTimes h
    simp only [logLoop] at h
    split at h
    case isTrue hcond => exact absurd h (by simp)
    case isFalse hcond =>
      injection h with h
      subst h
      exact ⟨htlog, hTimes, le_refl _, le_of_not_lt hcond,
        fun i h1 h2 => absurd (lt_of_le_of_lt h1 h2) (lt_irrefl _)⟩
  | succ fuel ih =>
    intro st st2 hd htlog hTimes h
    simp only [logLoop] at h
    split at h
    case isFalse hcond =>
      injection h with h
      subst h
      exact ⟨htlog, hTimes, le_refl _, le_of_not_lt hcond,
        fun i h1 h2 => absurd (lt_of_le_of_lt h1 h2) (lt_irrefl _)⟩
    case isTrue hcond =>
      cases hode : st.model.is_ode <;>
        simp only [hode, eq_self_iff_true, if_true, Bool.false_eq_true, if_false] at h <;>
        · repeat' split at h
          all_goals
            first
            | (simp at h <;> done)
            | (simp_all [apply_ite SimState.log_interval] <;> done)
            | (obtain ⟨c1, c2, c3, c4, c5⟩ := ih _ _
                 (by simpa [apply_ite SimState.log_interval] using hd)
                 (by simp [apply_ite SimState.tmin, apply_ite SimState.ilog,
                   apply_ite SimState.log_interval])
                 (by simp [apply_ite SimState.logTimes, apply_ite SimState.ilog,
                   apply_ite SimState.tmin, apply_ite SimState.log_interval,
                   hTimes, htlog, List.range_succ])
                 h
               have hf := logLoop_frame_ok h
               refine ⟨c1, c2, ?_, c4, ?_⟩
               · have c3n : st.ilog + 1 ≤ st2.ilog := by
                   simpa [apply_ite SimState.ilog] using c3
                 omega
               · intro i h1 h2
                 rcases Nat.lt_or_ge i (st.ilog + 1) with hlt | hge
                 · have hieq : i = st.ilog := by omega
                   subst hieq
                   rw [hf.1, hf.2.2.1, hf.2.2.2.2.2.1]
                   have hgoal : st.tmin + (st.ilog : ℚ) * st.log_interval < st.t := by
                     rw [← htlog]; exact hcond
                   simpa [apply_ite SimState.t, apply_ite SimState.tmin,
                     apply_ite SimState.log_interval] using hgoal
                 · exact c5 i (by simpa [apply_ite SimState.ilog] using hge) h2)

lemma foldl_min_le (l : List PacingSys) (a tq : ℚ) :
    l.foldl (fun x ps => min x (ps.nextTime tq)) a ≤ a := by
  induction l generalizing a with
  | nil => exact le_refl a
  | cons p rest ih => exact le_trans (ih _) (min_le_left _ _)

/-- After the pacing update, the next halting point is at most `tmax`. -/
lemma pacingUpdate_tnext_le (st : SimState) : (pacingUpdate st).tnext ≤ st.tmax :=
  foldl_min_le _ _ _

@[simp] lemma pacingUpdate_t (st : SimState) : (pacingUpdate st).t = st.t := rfl

@[simp] lemma pacingUpdate_tmax (st : SimState) : (pacingUpdate st).tmax = st.tmax := rfl

@[simp] lemma pacingUpdate_tmin (st : SimState) : (pacingUpdate st).tmin = st.tmin := rfl

@[simp] lemma pacingUpdate_dynamic (st : SimState) :
    (pacingUpdate st).dynamic_logging = st.dynamic_logging := rfl

@[simp] lemma pacingUpdate_logInterval (st : SimState) :
    (pacingUpdate st).log_interval = st.log_interval := rfl

@[simp] lemma pacingUpdate_logTimesList (st : SimState) :
    (pacingUpdate st).log_times = st.log_times := rfl

@[simp] lemma pacingUpdate_cvode (st : SimState) : (pacingUpdate st).cvode = st.cvode := rfl

@[simp] lemma pacingUpdate_zeroCount (st : SimState) :
    (pacingUpdate st).zero_step_count = st.zero_step_count := rfl

@[simp] lemma pacingUpdate_statePy (st : SimState) :
    (pacingUpdate st).state_py = st.state_py := rfl

@[simp] lemma pacingUpdate_boundPy (st : SimState) :
    (pacingUpdate st).bound_py = st.bound_py := rfl

@[simp] lemma pacingUpdate_logVars (st : SimState) :
    (pacingUpdate st).logVars = st.logVars := rfl

@[simp] lemma pacingUpdate_sinks (st : SimState) : (pacingUpdate st).sinks = st.sinks := rfl

@[simp] lemma pacingUpdate_logTimes (st : SimState) :
    (pacingUpdate st).logTimes = st.logTimes := rfl

@[simp] lemma pacingUpdate_sensRows (st : SimState) :
    (pacingUpdate st).sensRows = st.sensRows := rfl

@[simp] lemma pacingUpdate_tlog (st : SimState) : (pacingUpdate st).tlog = st.tlog := rfl

@[simp] lemma pacingUpdate_ilog (st : SimState) : (pacingUpdate st).ilog = st.ilog := rfl

@[simp] lemma pacingUpdate_model (st : SimState) : (pacingUpdate st).model = st.model := rfl

@[simp] lemma rewindRoot_model (st : SimState) (root : Bool) (dir : Int)
    (interp : ℚ → List ℚ) (interpS : ℚ → List (List ℚ)) :
    (rewindRoot st root dir interp interpS).model = st.model := by
  unfold rewindRoot
  repeat' split
  all_goals rfl

@[simp] lemma rewindRoot_tnext (st : SimState) (root : Bool) (dir : Int)
    (interp : ℚ → List ℚ) (interpS : ℚ → List (List ℚ)) :
    (rewindRoot st root dir interp interpS).tnext = st.tnext := by
  unfold rewindRoot
  repeat' split
  all_goals rfl

@[simp] lemma rewindRoot_tmax (st : SimState) (root : Bool) (dir : Int)
    (interp : ℚ → List ℚ) (interpS : ℚ → List (List ℚ)) :
    (rewindRoot st root dir interp interpS).tmax = st.tmax := by
  unfold rewindRoot
  repeat' split
  all_goals rfl

@[simp] lemma rewindRoot_tmin (st : SimState) (root : Bool) (dir : Int)
    (interp : ℚ → List ℚ) (interpS : ℚ → List (List ℚ)) :
    (rewindRoot st root dir interp interpS).tmin = st.tmin := by
  unfold rewindRoot
  repeat' split
  all_goals rfl

@[simp] lemma rewindRoot_dynamic (st : SimState) (root : Bool) (dir : Int)
    (interp : ℚ → List ℚ) (interpS : ℚ → List (List ℚ)) :
    (rewindRoot st root dir interp interpS).dynamic_logging = st.dynamic_logging := by
  unfold rewindRoot
  repeat' split
  all_goals rfl

@[simp] lemma rewindRoot_logInterval (st : SimState) (root : Bool) (dir : Int)
    (interp : ℚ → List ℚ) (interpS : ℚ → List (List ℚ)) :
    (rewindRoot st root dir interp interpS).log_interval = st.log_interval := by
  unfold rewindRoot
  repeat' split
  all_goals rfl

@[simp] lemma rewindRoot_logTimesList (st : SimState) (root : Bool) (dir : Int)
    (interp : ℚ → List ℚ) (interpS : ℚ → List (List ℚ)) :
    (rewindRoot st root dir interp interpS).log_times = st.log_times := by
  unfold rewindRoot
  repeat' split
  all_goals rfl

@[simp] lemma rewindRoot_cvode (st : SimState) (root : Bool) (dir : Int)
    (interp : ℚ → List ℚ) (interpS : ℚ → List (List ℚ)) :
    (rewindRoot st root dir interp interpS).cvode = st.cvode := by
  unfold rewindRoot
  repeat' split
  all_goals rfl

@[simp] lemma rewindRoot_zeroCount (st : SimState) (root : Bool) (dir : Int)
    (interp : ℚ → List ℚ) (interpS : ℚ → List (List ℚ)) :
    (rewindRoot st root dir interp interpS).zero_step_count = st.zero_step_count := by
  unfold rewindRoot
  repeat' split
  all_goals rfl

@[simp] lemma rewindRoot_statePy (st : SimState) (root : Bool) (dir : Int)
    (interp : ℚ → List ℚ) (interpS : ℚ → List (List ℚ)) :
    (rewindRoot st root dir interp interpS).state_py = st.state_py := by
  unfold rewindRoot
  repeat' split
  all_goals rfl

@[simp] lemma rewindRoot_boundPy (st : SimState) (root : Bool) (dir : Int)
    (interp : ℚ → List ℚ) (interpS : ℚ → List (List ℚ)) :
    (rewindRoot st root dir interp interpS).bound_py = st.bound_py := by
  unfold rewindRoot
  repeat' split
  all_goals rfl

@[simp] lemma rewindRoot_logVars (st : SimState) (root : Bool) (dir : Int)
    (interp : ℚ → List ℚ) (interpS : ℚ → List (List ℚ)) :
    (rewindRoot st root dir interp interpS).logVars = st.logVars := by
  unfold rewindRoot
  repeat' split
  all_goals rfl

@[simp] lemma rewindRoot_sinks (st : SimState) (root : Bool) (dir : Int)
    (interp : ℚ → List ℚ) (interpS : ℚ → List (List ℚ)) :
    (rewindRoot st root dir interp interpS).sinks = st.sinks := by
  unfold rewindRoot
  repeat' split
  all_goals rfl

@[simp] lemma rewindRoot_logTimes (st : SimState) (root : Bool) (dir : Int)
    (interp : ℚ → List ℚ) (interpS : ℚ → List (List ℚ)) :
    (rewindRoot st root dir interp interpS).logTimes = st.logTimes := by
  unfold rewindRoot
  repeat' split
  all_goals rfl

@[simp] lemma rewindRoot_sensRows (st : SimState) (root : Bool) (dir : Int)
    (interp : ℚ → List ℚ) (interpS : ℚ → List (List ℚ)) :
    (rewindRoot st root dir interp interpS).sensRows = st.sensRows := by
  unfold rewindRoot
  repeat' split
  all_goals rfl

@[simp] lemma rewindRoot_tlog (st : SimState) (root : Bool) (dir : Int)
    (interp : ℚ → List ℚ) (interpS : ℚ → List (List ℚ)) :
    (rewindRoot st root dir interp interpS).tlog = st.tlog := by
  unfold rewindRoot
  repeat' split
  all_goals rfl

@[simp] lemma rewindRoot_ilog (st : SimState) (root : Bool) (dir : Int)
    (interp : ℚ → List ℚ) (interpS : ℚ → List (List ℚ)) :
    (rewindRoot st root dir interp interpS).ilog = st.ilog := by
  unfold rewindRoot
  repeat' split
  all_goals rfl

/-- After the rewind block the current time never exceeds `tmax`, provided
`tnext ≤ tmax` in ODE mode and `t ≤ tmax` already in CVODE-free mode. -/
lemma rewindRoot_t_le (st : SimState) (root : Bool) (dir : Int)
    (interp : ℚ → List ℚ) (interpS : ℚ → List (List ℚ))
    (h1 : st.model.is_ode = true → st.tnext ≤ st.tmax)
    (h2 : st.model.is_ode = false → st.t ≤ st.tmax) :
    (rewindRoot st root dir interp interpS).t ≤ st.tmax := by
  unfold rewindRoot
  cases hode : st.model.is_ode with
  | false => simpa using h2 hode
  | true =>
    simp only [hode, eq_self_iff_true, if_true]
    split
    case isTrue hlt => exact h1 hode
    case isFalse hlt =>
      have hle : st.t ≤ st.tnext := le_of_not_lt hlt
      have := le_trans hle (h1 hode)
      repeat' split
      all_goals simpa using this


@[simp] lemma writeFinal_sinks (st : SimState) : (writeFinal st).sinks = st.sinks := rfl

@[simp] lemma writeFinal_logVars (st : SimState) : (writeFinal st).logVars = st.logVars := rfl

@[simp] lemma writeFinal_logTimes (st : SimState) : (writeFinal st).logTimes = st.logTimes := rfl

@[simp] lemma writeFinal_sensRows (st : SimState) : (writeFinal st).sensRows = st.sensRows := rfl

@[simp] lemma writeFinal_model (st : SimState) : (writeFinal st).model = st.model := rfl

@[simp] lemma writeFinal_t (st : SimState) : (writeFinal st).t = st.t := rfl

@[simp] lemma writeFinal_tmin (st : SimState) : (writeFinal st).tmin = st.tmin := rfl

@[simp] lemma writeFinal_tmax (st : SimState) : (writeFinal st).tmax = st.tmax := rfl

@[simp] lemma writeFinal_logInterval (st : SimState) :
    (writeFinal st).log_interval = st.log_interval := rfl

@[simp] lemma writeFinal_tlog (st : SimState) : (writeFinal st).tlog = st.tlog := rfl

@[simp] lemma writeFinal_ilog (st : SimState) : (writeFinal st).ilog = st.ilog := rfl

@[simp] lemma writeFinal_cvode (st : SimState) : (writeFinal st).cvode = st.cvode := rfl

@[simp] lemma writeFinal_dynamic (st : SimState) :
    (writeFinal st).dynamic_logging = st.dynamic_logging := rfl

@[simp] lemma writeFinal_zeroCount (st : SimState) :
    (writeFinal st).zero_step_count = st.zero_step_count := rfl

@[simp] lemma iterOutState_cont (st : SimState) : (IterOut.cont st).state = st := rfl

@[simp] lemma iterOutState_finished (t : ℚ) (st : SimState) :
    (IterOut.finished t st).state = st := rfl

@[simp] lemma iterOutState_failed (e : ErrKind) (st : SimState) :
    (IterOut.failed e st).state = st := rfl

/-- `finishCheck` written with the snap pushed inward. -/
lemma finishCheck_spec (env : Env) (st : SimState) :
    finishCheck env st =
      (if st.tmax ≤ (if env.esys_eq st.t st.tmax then st.tmax else st.t)
       then .finished (if env.esys_eq st.t st.tmax then st.tmax else st.t)
              (writeFinal { st with t := if env.esys_eq st.t st.tmax then st.tmax else st.t })
       else .cont { st with t := if env.esys_eq st.t st.tmax then st.tmax else st.t }) := rfl

lemma finishCheck_not_failed (env : Env) (st : SimState) (e : ErrKind) (s2 : SimState) :
    finishCheck env st ≠ .failed e s2 := by
  rw [finishCheck_spec]
  repeat' split
  all_goals exact fun h => IterOut.noConfusion h

/-- When the loop breaks out, the returned time is `tmax`, provided `t` had
not silently overrun it. -/
lemma finishCheck_finished_t {env : Env} {st : SimState} {tf : ℚ} {st2 : SimState}
    (hle : st.t ≤ st.tmax) (h : finishCheck env st = .finished tf st2) : tf = st.tmax := by
  rw [finishCheck_spec] at h
  by_cases he : env.esys_eq st.t st.tmax = true
  · rw [if_pos he, if_pos (le_refl st.tmax)] at h
    injection h with h1 h2
    exact h1.symm
  · rw [if_neg he] at h
    split at h
    next hge =>
      injection h with h1 h2
      exact h1 ▸ le_antisymm hle hge
    next hge => exact IterOut.noConfusion h

lemma finishCheck_finished_eq {env : Env} {st : SimState} {tf : ℚ} {st2 : SimState}
    (h : finishCheck env st = .finished tf st2) :
    st2 = writeFinal { st with t := tf } ∧ st.tmax ≤ tf := by
  rw [finishCheck_spec] at h
  by_cases he : env.esys_eq st.t st.tmax = true
  · rw [if_pos he, if_pos (le_refl st.tmax)] at h
    injection h with h1 h2
    subst h1
    exact ⟨h2.symm, le_refl _⟩
  · rw [if_neg he] at h
    split at h
    next hge =>
      injection h with h1 h2
      subst h1
      exact ⟨h2.symm, hge⟩
    next hge => exact IterOut.noConfusion h

lemma finishCheck_cont_eq {env : Env} {st : SimState} {st2 : SimState}
    (h : finishCheck env st = .cont st2) :
    st2 = { st with t := if env.esys_eq st.t st.tmax then st.tmax else st.t } ∧
      ¬ st.tmax ≤ st2.t := by
  rw [finishCheck_spec] at h
  by_cases he : env.esys_eq st.t st.tmax = true
  · rw [if_pos he, if_pos (le_refl st.tmax)] at h
    exact IterOut.noConfusion h
  · rw [if_neg he] at h
    split at h
    next hge => exact IterOut.noConfusion h
    next hge =>
      injection h with h1
      constructor
      · rw [← h1, if_neg he]
      · rw [← h1]
        exact hge

lemma iterFrame_rfl (a : SimState) : IterFrame a a := ⟨rfl, rfl, rfl, rfl, rfl, rfl⟩

lemma iterFrame_trans {a b c : SimState} (h1 : IterFrame a b) (h2 : IterFrame b c) :
    IterFrame a c := by
  obtain ⟨p1, p2, p3, p4, p5, p6⟩ := h1
  obtain ⟨q1, q2, q3, q4, q5, q6⟩ := h2
  exact ⟨q1.trans p1, q2.trans p2, q3.trans p3,
    q4.trans p4, q5.trans p5, q6.trans p6⟩

lemma iterFrame_of_logFrame {a b : SimState} (h : LogFrame a b) : IterFrame a b := by
  obtain ⟨h1, h2, h3, h4, h5, h6, h7, h8, h9, h10, h11⟩ := h
  exact ⟨h3, h4, h5, h6, h11, h7⟩

lemma growOk_of_eq {a b : SimState} (h1 : b.logVars = a.logVars) (h2 : b.sinks = a.sinks) :
    GrowOk a b := by
  refine ⟨h1, fun hlen => ⟨?_, 0, ?_⟩⟩
  · rw [h1, h2]; exact hlen
  · rw [h2]; exact sinkGrowth_zero _

lemma sensFrame_of_eq {a b : SimState} (h1 : b.sensRows = a.sensRows)
    (h2 : b.model.has_sensitivities = a.model.has_sensitivities) : SensFrame a b :=
  fun ha => ⟨h1, h2.trans ha⟩

/-- The dynamic-logging stage: frame fields and the zero-step counter are
untouched in every outcome. -/
lemma stepDyn_frame (env : Env) (st : SimState) :
    IterFrame st (stepDyn env st).state ∧
      (stepDyn env st).state.zero_step_count = st.zero_step_count := by
  unfold stepDyn
  split
  next es heq =>
    have hf := dynLog_frame env st
    split at heq
    case isTrue hdy =>
      rw [heq] at hf
      exact ⟨iterFrame_of_logFrame (by simpa using hf), by
        simpa using hf.2.2.2.2.2.2.2.1⟩
    case isFalse hdy => exact Except.noConfusion heq
  next st1 heq =>
    have hpre : LogFrame st st1 := by
      have hf := dynLog_frame env st
      split at heq
      case isTrue hdy =>
        rw [heq] at hf
        simpa using hf
      case isFalse hdy =>
        injection heq with h1
        rw [← h1]
        exact logFrame_rfl _
    constructor
    · refine iterFrame_trans (iterFrame_of_logFrame hpre) ?_
      rw [finishCheck_spec]
      repeat' split
      all_goals exact ⟨rfl, rfl, rfl, rfl, rfl, rfl⟩
    · refine Eq.trans ?_ hpre.2.2.2.2.2.2.2.1
      rw [finishCheck_spec]
      repeat' split
      all_goals rfl

/-- The dynamic-logging stage: sensitivity frame. -/
lemma stepDyn_sens (env : Env) (st : SimState) : SensFrame st (stepDyn env st).state := by
  unfold stepDyn
  split
  next es heq =>
    have hs := dynLog_sens env st
    split at heq
    case isTrue hdy => rw [heq] at hs; simpa using hs
    case isFalse hdy => exact Except.noConfusion heq
  next st1 heq =>
    have hpre : SensFrame st st1 := by
      have hs := dynLog_sens env st
      split at heq
      case isTrue hdy => rw [heq] at hs; simpa using hs
      case isFalse hdy =>
        injection heq with h1
        rw [← h1]
        exact sensFrame_rfl _
    refine sensFrame_trans hpre ?_
    rw [finishCheck_spec]
    repeat' split
    all_goals exact sensFrame_of_eq rfl rfl

/-- The dynamic-logging stage: sink growth when appends succeed. -/
lemma stepDyn_grow (env : Env) (st : SimState) (hok : ∀ i n, env.appendOk i n = true) :
    GrowOk st (stepDyn env st).state := by
  unfold stepDyn
  split
  next es heq =>
    have hg := dynLog_grow env st hok
    split at heq
    case isTrue hdy => rw [heq] at hg; simpa using hg
    case isFalse hdy => exact Except.noConfusion heq
  next st1 heq =>
    have hpre : GrowOk st st1 := by
      have hg := dynLog_grow env st hok
      split at heq
      case isTrue hdy => rw [heq] at hg; simpa using hg
      case isFalse hdy =>
        injection heq with h1
        rw [← h1]
        exact growOk_rfl _
    refine growOk_trans hpre ?_
    rw [finishCheck_spec]
    repeat' split
    all_goals exact growOk_of_eq rfl rfl

/-- The dynamic-logging stage: failures only come from the logging call, and
leave the output lists untouched. -/
lemma stepDyn_failed (env : Env) (st : SimState) (e : ErrKind) (s2 : SimState)
    (h : stepDyn env st = .failed e s2) :
    (e = .logNotInit ∨ e = .logAppend) ∧ s2.state_py = st.state_py ∧
      s2.bound_py = st.bound_py := by
  unfold stepDyn at h
  split at h
  next es heq =>
    injection h with h1 h2
    split at heq
    case isTrue hdy =>
      have hf := dynLog_frame env st
      rw [heq] at hf
      have hk := dynLog_errKinds env st es.1 es.2 (by rw [heq])
      subst h1
      subst h2
      exact ⟨hk, by simpa using hf.2.2.2.2.2.2.2.2.1, by simpa using hf.2.2.2.2.2.2.2.2.2.1⟩
    case isFalse hdy => exact Except.noConfusion heq
  next st1 heq => exact absurd h (finishCheck_not_failed env st1 e s2)


/-- Reduce a `stepLog` call to its logging stage and continuation. -/
lemma stepLog_ok_pre {env : Env} {st st1 : SimState}
    {interp : ℚ → List ℚ} {interpS : ℚ → List (List ℚ)}
    (heq : (if !st.dynamic_logging && st.tlog < st.t
            then logLoop env interp interpS env.logFuel st else .ok st) = .ok st1) :
    LogFrame st st1 := by
  split at heq
  case isTrue hg => exact logLoop_frame_ok heq
  case isFalse hg =>
    injection heq with h1
    rw [← h1]
    exact logFrame_rfl _

/-- The interpolation-logging stage: frame fields and the zero-step counter
are untouched in every outcome. -/
lemma stepLog_frame (env : Env) (st : SimState)
    (interp : ℚ → List ℚ) (interpS : ℚ → List (List ℚ)) :
    IterFrame st (stepLog env st interp interpS).state ∧
      (stepLog env st interp interpS).state.zero_step_count = st.zero_step_count := by
  unfold stepLog
  split
  next es heq =>
    have hf := logLoop_frame env interp interpS env.logFuel st
    split at heq
    case isTrue hg =>
      rw [heq] at hf
      exact ⟨iterFrame_of_logFrame (by simpa using hf), by simpa using hf.2.2.2.2.2.2.2.1⟩
    case isFalse hg => exact Except.noConfusion heq
  next st1 heq =>
    have hpre : LogFrame st st1 := stepLog_ok_pre heq
    have hd := stepDyn_frame env (pacingUpdate st1)
    constructor
    · refine iterFrame_trans (iterFrame_of_logFrame hpre)
        (iterFrame_trans ?_ hd.1)
      exact ⟨rfl, rfl, rfl, rfl, rfl, rfl⟩
    · rw [hd.2]
      exact Eq.trans (pacingUpdate_zeroCount st1) hpre.2.2.2.2.2.2.2.1

/-- The interpolation-logging stage: sensitivity frame. -/
lemma stepLog_sens (env : Env) (st : SimState)
    (interp : ℚ → List ℚ) (interpS : ℚ → List (List ℚ)) :
    SensFrame st (stepLog env st interp interpS).state := by
  unfold stepLog
  split
  next es heq =>
    have hs := logLoop_sens env interp interpS env.logFuel st
    split at heq
    case isTrue hg => rw [heq] at hs; simpa using hs
    case isFalse hg => exact Except.noConfusion heq
  next st1 heq =>
    have hpre : SensFrame st st1 := by
      have hs := logLoop_sens env interp interpS env.logFuel st
      split at heq
      case isTrue hg => rw [heq] at hs; simpa using hs
      case isFalse hg =>
        injection heq with h1
        rw [← h1]
        exact sensFrame_rfl _
    exact sensFrame_trans hpre
      (sensFrame_trans (sensFrame_of_eq rfl rfl) (stepDyn_sens env (pacingUpdate st1)))

/-- The interpolation-logging stage: sink growth when appends succeed. -/
lemma stepLog_grow (env : Env) (st : SimState)
    (interp : ℚ → List ℚ) (interpS : ℚ → List (List ℚ))
    (hok : ∀ i n, env.appendOk i n = true) :
    GrowOk st (stepLog env st interp interpS).state := by
  unfold stepLog
  split
  next es heq =>
    have hg2 := logLoop_grow env interp interpS hok env.logFuel st
    split at heq
    case isTrue hg => rw [heq] at hg2; simpa using hg2
    case isFalse hg => exact Except.noConfusion heq
  next st1 heq =>
    have hpre : GrowOk st st1 := by
      have hg2 := logLoop_grow env interp interpS hok env.logFuel st
      split at heq
      case isTrue hg => rw [heq] at hg2; simpa using hg2
      case isFalse hg =>
        injection heq with h1
        rw [← h1]
        exact growOk_rfl _
    exact growOk_trans hpre
      (growOk_trans (growOk_of_eq rfl rfl) (stepDyn_grow env (pacingUpdate st1) hok))

/-- The interpolation-logging stage: failures only come from logging, and
leave the output lists untouched. -/
lemma stepLog_failed (env : Env) (st : SimState)
    (interp : ℚ → List ℚ) (interpS : ℚ → List (List ℚ)) (e : ErrKind) (s2 : SimState)
    (h : stepLog env st interp interpS = .failed e s2) :
    (e = .fuelOut ∨ e = .logNotInit ∨ e = .logAppend ∨ e = .countOverflow ∨
      e = .logTimesDecreasing) ∧
      s2.state_py = st.state_py ∧ s2.bound_py = st.bound_py := by
  unfold stepLog at h
  split at h
  next es heq =>
    injection h with h1 h2
    split at heq
    case isTrue hg =>
      have hf := logLoop_frame env interp interpS env.logFuel st
      rw [heq] at hf
      have hk := logLoop_errKinds env interp interpS env.logFuel st es.1 es.2 (by rw [heq])
      subst h1
      subst h2
      exact ⟨hk, by simpa using hf.2.2.2.2.2.2.2.2.1, by simpa using hf.2.2.2.2.2.2.2.2.2.1⟩
    case isFalse hg => exact Except.noConfusion heq
  next st1 heq =>
    have hpre : LogFrame st st1 := stepLog_ok_pre heq
    obtain ⟨hk, hs, hb⟩ := stepDyn_failed env (pacingUpdate st1) e s2 h
    refine ⟨Or.inr (Or.elim hk (fun hx => Or.inl hx) fun hx => Or.inr (Or.inl hx)), ?_, ?_⟩
    · rw [hs]
      exact Eq.trans (pacingUpdate_statePy st1) hpre.2.2.2.2.2.2.2.2.1
    · rw [hb]
      exact Eq.trans (pacingUpdate_boundPy st1) hpre.2.2.2.2.2.2.2.2.2.1

/-- Completion through the logging stage returns `tmax` when `t` had not
overrun it. -/
lemma stepDyn_finished_t {env : Env} {st : SimState} {tf : ℚ} {st2 : SimState}
    (hle : st.t ≤ st.tmax) (h : stepDyn env st = .finished tf st2) : tf = st.tmax := by
  unfold stepDyn at h
  split at h
  next es heq => exact IterOut.noConfusion h
  next st1 heq =>
    have hpre : LogFrame st st1 := by
      have hf := dynLog_frame env st
      split at heq
      case isTrue hdy => rw [heq] at hf; simpa using hf
      case isFalse hdy =>
        injection heq with h1
        rw [← h1]
        exact logFrame_rfl _
    have := finishCheck_finished_t
      (show st1.t ≤ st1.tmax by rw [hpre.1, hpre.2.2.2.1]; exact hle) h
    rw [this, hpre.2.2.2.1]

/-- A `cont` outcome of the dynamic stage keeps `tnext` and `tmax`. -/
lemma stepDyn_cont_next {env : Env} {st : SimState} {st2 : SimState}
    (h : stepDyn env st = .cont st2) : st2.tnext = st.tnext ∧ st2.tmax = st.tmax := by
  unfold stepDyn at h
  split at h
  next es heq => exact IterOut.noConfusion h
  next st1 heq =>
    have hpre : LogFrame st st1 := by
      have hf := dynLog_frame env st
      split at heq
      case isTrue hdy => rw [heq] at hf; simpa using hf
      case isFalse hdy =>
        injection heq with h1
        rw [← h1]
        exact logFrame_rfl _
    obtain ⟨h1, h2⟩ := finishCheck_cont_eq h
    subst h1
    exact ⟨hpre.2.1, hpre.2.2.2.1⟩

lemma stepLog_finished_t {env : Env} {st : SimState} {tf : ℚ} {st2 : SimState}
    {interp : ℚ → List ℚ} {interpS : ℚ → List (List ℚ)}
    (hle : st.t ≤ st.tmax) (h : stepLog env st interp interpS = .finished tf st2) :
    tf = st.tmax := by
  unfold stepLog at h
  split at h
  next es heq => exact IterOut.noConfusion h
  next st1 heq =>
    have hpre : LogFrame st st1 := stepLog_ok_pre heq
    have := stepDyn_finished_t
      (show (pacingUpdate st1).t ≤ (pacingUpdate st1).tmax by
        rw [pacingUpdate_t, pacingUpdate_tmax, hpre.1, hpre.2.2.2.1]; exact hle) h
    rw [this, pacingUpdate_tmax, hpre.2.2.2.1]

/-- A `cont` outcome of the logging stage has passed the pacing update, so
`tnext` is again bounded by `tmax`. -/
lemma stepLog_cont_next {env : Env} {st : SimState} {st2 : SimState}
    {interp : ℚ → List ℚ} {interpS : ℚ → List (List ℚ)}
    (h : stepLog env st interp interpS = .cont st2) : st2.tnext ≤ st2.tmax := by
  unfold stepLog at h
  split at h
  next es heq => exact IterOut.noConfusion h
  next st1 heq =>
    obtain ⟨h1, h2⟩ := stepDyn_cont_next h
    have hp := pacingUpdate_tnext_le st1
    obtain ⟨hd1, hd2⟩ := stepDyn_frame env (pacingUpdate st1)
    rw [h1, h2, pacingUpdate_tmax]
    simpa using hp


/-- One iteration tail: frame fields are untouched in every outcome. -/
lemma stepTail_frame (env : Env) (st0 : SimState) (root : Bool) (dir : Int)
    (interp : ℚ → List ℚ) (interpS : ℚ → List (List ℚ)) :
    IterFrame st0 (stepTail env st0 root dir interp interpS).state := by
  unfold stepTail
  cases hz : zeroStepCheck st0.t st0.tlast st0.zero_step_count with
  | none => exact iterFrame_rfl _
  | some zc =>
    refine iterFrame_trans (b := { st0 with zero_step_count := zc, steps := st0.steps + 1 })
      ⟨rfl, rfl, rfl, rfl, rfl, rfl⟩ ?_
    refine iterFrame_trans
      (b := rewindRoot { st0 with zero_step_count := zc, steps := st0.steps + 1 }
        root dir interp interpS)
      ⟨rewindRoot_tmin _ _ _ _ _, rewindRoot_tmax _ _ _ _ _, rewindRoot_dynamic _ _ _ _ _,
        rewindRoot_logInterval _ _ _ _ _, rewindRoot_logVars _ _ _ _ _,
        rewindRoot_cvode _ _ _ _ _⟩ ?_
    exact (stepLog_frame env _ interp interpS).1

/-- One iteration tail: when the zero-step guard passes, the counter of the
resulting state is exactly the checked value. -/
lemma stepTail_zc {env : Env} {st0 : SimState} {root : Bool} {dir : Int}
    {interp : ℚ → List ℚ} {interpS : ℚ → List (List ℚ)} {zc : Nat}
    (hz : zeroStepCheck st0.t st0.tlast st0.zero_step_count = some zc) :
    (stepTail env st0 root dir interp interpS).state.zero_step_count = zc := by
  unfold stepTail
  rw [hz]
  have h2 := (stepLog_frame env
    (rewindRoot { st0 with zero_step_count := zc, steps := st0.steps + 1 }
      root dir interp interpS) interp interpS).2
  rw [h2, rewindRoot_zeroCount]

/-- One iteration tail: the zero-step failure happens exactly when the guard
trips, and then the state is returned unchanged. -/
lemma stepTail_zeroFail (env : Env) (st0 : SimState) (root : Bool) (dir : Int)
    (interp : ℚ → List ℚ) (interpS : ℚ → List (List ℚ)) (s2 : SimState) :
    stepTail env st0 root dir interp interpS = .failed .zeroStep s2 ↔
      (zeroStepCheck st0.t st0.tlast st0.zero_step_count = none ∧ s2 = st0) := by
  unfold stepTail
  cases hz : zeroStepCheck st0.t st0.tlast st0.zero_step_count with
  | none =>
    constructor
    · intro h
      injection h with h1 h2
      exact ⟨rfl, h2.symm⟩
    · intro h
      rw [h.2]
  | some zc =>
    constructor
    · intro h
      obtain ⟨hk, _, _⟩ := stepLog_failed env _ interp interpS _ _ h
      rcases hk with h1 | h1 | h1 | h1 | h1 <;> exact absurd h1 (by simp)
    · intro h
      exact absurd h.1 (by simp)

/-- One iteration tail: sensitivity frame. -/
lemma stepTail_sens (env : Env) (st0 : SimState) (root : Bool) (dir : Int)
    (interp : ℚ → List ℚ) (interpS : ℚ → List (List ℚ)) :
    SensFrame st0 (stepTail env st0 root dir interp interpS).state := by
  unfold stepTail
  cases hz : zeroStepCheck st0.t st0.tlast st0.zero_step_count with
  | none => exact sensFrame_rfl _
  | some zc =>
    refine sensFrame_trans (b := { st0 with zero_step_count := zc, steps := st0.steps + 1 })
      (sensFrame_of_eq rfl rfl) ?_
    refine sensFrame_trans
      (b := rewindRoot { st0 with zero_step_count := zc, steps := st0.steps + 1 }
        root dir interp interpS)
      (sensFrame_of_eq (rewindRoot_sensRows _ _ _ _ _)
        (congrArg Model.has_sensitivities (rewindRoot_model _ _ _ _ _))) ?_
    exact stepLog_sens env _ interp interpS

/-- One iteration tail: sink growth when appends succeed. -/
lemma stepTail_grow (env : Env) (st0 : SimState) (root : Bool) (dir : Int)
    (interp : ℚ → List ℚ) (interpS : ℚ → List (List ℚ))
    (hok : ∀ i n, env.appendOk i n = true) :
    GrowOk st0 (stepTail env st0 root dir interp interpS).state := by
  unfold stepTail
  cases hz : zeroStepCheck st0.t st0.tlast st0.zero_step_count with
  | none => exact growOk_rfl _
  | some zc =>
    refine growOk_trans (b := { st0 with zero_step_count := zc, steps := st0.steps + 1 })
      (growOk_of_eq rfl rfl) ?_
    refine growOk_trans
      (b := rewindRoot { st0 with zero_step_count := zc, steps := st0.steps + 1 }
        root dir interp interpS)
      (growOk_of_eq (rewindRoot_logVars _ _ _ _ _) (rewindRoot_sinks _ _ _ _ _)) ?_
    exact stepLog_grow env _ interp interpS hok

/-- One iteration tail: error kinds, and failures leave the output lists
untouched. -/
lemma stepTail_failed (env : Env) (st0 : SimState) (root : Bool) (dir : Int)
    (interp : ℚ → List ℚ) (interpS : ℚ → List (List ℚ)) (e : ErrKind) (s2 : SimState)
    (h : stepTail env st0 root dir interp interpS = .failed e s2) :
    (e = .zeroStep ∨ e = .fuelOut ∨ e = .logNotInit ∨ e = .logAppend ∨
      e = .countOverflow ∨ e = .logTimesDecreasing) ∧
      s2.state_py = st0.state_py ∧ s2.bound_py = st0.bound_py := by
  unfold stepTail at h
  cases hz : zeroStepCheck st0.t st0.tlast st0.zero_step_count with
  | none =>
    rw [hz] at h
    injection h with h1 h2
    exact ⟨Or.inl h1.symm, h2 ▸ ⟨rfl, rfl⟩⟩
  | some zc =>
    rw [hz] at h
    obtain ⟨hk, hs, hb⟩ := stepLog_failed env _ interp interpS _ _ h
    refine ⟨Or.inr hk, ?_, ?_⟩
    · rw [hs, rewindRoot_statePy]
    · rw [hb, rewindRoot_boundPy]

/-- One iteration tail: completion returns `tmax`, provided `tnext ≤ tmax` in
ODE mode and `t ≤ tmax` in CVODE-free mode. -/
lemma stepTail_finished_t {env : Env} {st0 : SimState} {root : Bool} {dir : Int}
    {interp : ℚ → List ℚ} {interpS : ℚ → List (List ℚ)} {tf : ℚ} {s2 : SimState}
    (h1 : st0.model.is_ode = true → st0.tnext ≤ st0.tmax)
    (h2 : st0.model.is_ode = false → st0.t ≤ st0.tmax)
    (h : stepTail env st0 root dir interp interpS = .finished tf s2) : tf = st0.tmax := by
  unfold stepTail at h
  cases hz : zeroStepCheck st0.t st0.tlast st0.zero_step_count with
  | none =>
    rw [hz] at h
    exact IterOut.noConfusion h
  | some zc =>
    rw [hz] at h
    have hle := rewindRoot_t_le { st0 with zero_step_count := zc, steps := st0.steps + 1 }
      root dir interp interpS h1 h2
    have := stepLog_finished_t (by rw [rewindRoot_tmax]; exact hle) h
    rw [this, rewindRoot_tmax]

/-- One iteration tail: on `cont` the pacing update has run, so `tnext` is
bounded by `tmax` again. -/
lemma stepTail_cont_next {env : Env} {st0 : SimState} {root : Bool} {dir : Int}
    {interp : ℚ → List ℚ} {interpS : ℚ → List (List ℚ)} {st2 : SimState}
    (h : stepTail env st0 root dir interp interpS = .cont st2) : st2.tnext ≤ st2.tmax := by
  unfold stepTail at h
  cases hz : zeroStepCheck st0.t st0.tlast st0.zero_step_count with
  | none =>
    rw [hz] at h
    exact IterOut.noConfusion h
  | some zc =>
    rw [hz] at h
    exact stepLog_cont_next h


/-- A `cont` outcome of the iteration tail keeps the frame fields. -/
lemma stepTail_cont_frame {env : Env} {st0 : SimState} {root : Bool} {dir : Int}
    {interp : ℚ → List ℚ} {interpS : ℚ → List (List ℚ)} {st2 : SimState}
    (h : stepTail env st0 root dir interp interpS = .cont st2) : IterFrame st0 st2 := by
  have hf := stepTail_frame env st0 root dir interp interpS
  rw [h] at hf
  simpa using hf

/-- Any outcome of the iteration tail satisfies the sensitivity frame. -/
lemma stepTail_sens_of {env : Env} {st0 : SimState} {root : Bool} {dir : Int}
    {interp : ℚ → List ℚ} {interpS : ℚ → List (List ℚ)} {o : IterOut}
    (h : stepTail env st0 root dir interp interpS = o) : SensFrame st0 o.state := by
  have hf := stepTail_sens env st0 root dir interp interpS
  rw [h] at hf
  exact hf

/-- Any outcome of the iteration tail satisfies the growth frame. -/
lemma stepTail_grow_of {env : Env} {st0 : SimState} {root : Bool} {dir : Int}
    {interp : ℚ → List ℚ} {interpS : ℚ → List (List ℚ)} {o : IterOut}
    (hok : ∀ i n, env.appendOk i n = true)
    (h : stepTail env st0 root dir interp interpS = o) : GrowOk st0 o.state := by
  have hf := stepTail_grow env st0 root dir interp interpS hok
  rw [h] at hf
  exact hf

/-- `stepIter` in ODE mode with a successful oracle outcome reduces to the
iteration tail on the advanced state. -/
lemma stepIter_ok_red {env : Env} {st0 : SimState} {cs : CVodeStep}
    {rest : List CVodeOutcome} (hode : st0.model.is_ode = true)
    (hcv : st0.cvode = CVodeOutcome.ok cs :: rest) :
    stepIter env st0 =
      stepTail env { st0 with ylast := st0.y, tlast := st0.t, cvode := rest,
                              t := cs.t, y := cs.y }
        cs.root cs.rootDir cs.interp cs.interpS := by
  unfold stepIter
  rw [if_pos (by simpa using hode)]
  simp only [hcv]

/-- `stepIter` in ODE mode with a failing oracle outcome writes the backup
state and the current bound values to the caller's lists and fails. -/
lemma stepIter_err_red {env : Env} {st0 : SimState} {flag : Int}
    {rest : List CVodeOutcome} (hode : st0.model.is_ode = true)
    (hcv : st0.cvode = CVodeOutcome.err flag :: rest) :
    stepIter env st0 =
      .failed (.integrator flag)
        { st0 with ylast := st0.y, tlast := st0.t, cvode := rest,
                   state_py := writeFloats st0.state_py st0.y st0.model.n_states,
                   bound_py := writeBound st0.bound_py st0.t st0.realtime
                     (st0.evaluations : ℚ) st0.pacing } := by
  unfold stepIter
  rw [if_pos (by simpa using hode)]
  simp only [hcv]

/-- `stepIter` with an exhausted oracle fails without touching anything. -/
lemma stepIter_nil_red {env : Env} {st0 : SimState} (hode : st0.model.is_ode = true)
    (hcv : st0.cvode = []) :
    stepIter env st0 = .failed .oracleOut { st0 with ylast := st0.y, tlast := st0.t } := by
  unfold stepIter
  rw [if_pos (by simpa using hode)]
  simp only [hcv]

/-- `stepIter` in CVODE-free mode jumps to `min(tnext, tmax)` and runs the
iteration tail. -/
lemma stepIter_free_red {env : Env} {st0 : SimState} (hode : st0.model.is_ode = false) :
    stepIter env st0 =
      stepTail env { st0 with ylast := st0.y, tlast := st0.t,
                              t := if st0.tnext < st0.tmax then st0.tnext else st0.tmax }
        false 0
        (fun _ => ({ st0 with ylast := st0.y, tlast := st0.t,
                              t := if st0.tnext < st0.tmax then st0.tnext else st0.tmax } : SimState).y)
        (fun _ => ({ st0 with ylast := st0.y, tlast := st0.t,
                              t := if st0.tnext < st0.tmax then st0.tnext else st0.tmax } : SimState).sy) := by
  unfold stepIter
  rw [if_neg (by simp [hode])]

/-- One loop iteration: sensitivity frame. -/
lemma stepIter_sens (env : Env) (st0 : SimState) :
    SensFrame st0 (stepIter env st0).state := by
  cases hode : st0.model.is_ode with
  | true =>
    cases hcv : st0.cvode with
    | nil =>
      rw [stepIter_nil_red hode hcv]
      exact sensFrame_of_eq rfl rfl
    | cons o rest =>
      cases o with
      | err flag =>
        rw [stepIter_err_red hode hcv]
        exact sensFrame_of_eq rfl rfl
      | ok cs =>
        rw [stepIter_ok_red hode hcv]
        refine sensFrame_trans ?_ (stepTail_sens_of rfl)
        exact sensFrame_of_eq rfl rfl
  | false =>
    rw [stepIter_free_red hode]
    refine sensFrame_trans ?_ (stepTail_sens_of rfl)
    exact sensFrame_of_eq rfl rfl

/-- One loop iteration: sink growth when appends succeed. -/
lemma stepIter_grow (env : Env) (st0 : SimState)
    (hok : ∀ i n, env.appendOk i n = true) :
    GrowOk st0 (stepIter env st0).state := by
  cases hode : st0.model.is_ode with
  | true =>
    cases hcv : st0.cvode with
    | nil =>
      rw [stepIter_nil_red hode hcv]
      exact growOk_of_eq rfl rfl
    | cons o rest =>
      cases o with
      | err flag =>
        rw [stepIter_err_red hode hcv]
        exact growOk_of_eq rfl rfl
      | ok cs =>
        rw [stepIter_ok_red hode hcv]
        refine growOk_trans ?_ (stepTail_grow_of hok rfl)
        exact growOk_of_eq rfl rfl
  | false =>
    rw [stepIter_free_red hode]
    refine growOk_trans ?_ (stepTail_grow_of hok rfl)
    exact growOk_of_eq rfl rfl

/-- One loop iteration: every non-integrator failure leaves the caller's
output lists untouched. -/
lemma stepIter_failed_outputs (env : Env) (st0 : SimState) (e : ErrKind) (s2 : SimState)
    (h : stepIter env st0 = .failed e s2) (hni : ∀ flag, e ≠ .integrator flag) :
    s2.state_py = st0.state_py ∧ s2.bound_py = st0.bound_py := by
  cases hode : st0.model.is_ode with
  | true =>
    cases hcv : st0.cvode with
    | nil =>
      rw [stepIter_nil_red hode hcv] at h
      injection h with h1 h2
      rw [← h2]
      exact ⟨rfl, rfl⟩
    | cons o rest =>
      cases o with
      | err flag =>
        rw [stepIter_err_red hode hcv] at h
        injection h with h1 h2
        exact absurd h1.symm (hni flag)
      | ok cs =>
        rw [stepIter_ok_red hode hcv] at h
        obtain ⟨_, hs, hb⟩ := stepTail_failed env _ _ _ _ _ _ _ h
        exact ⟨hs, hb⟩
  | false =>
    rw [stepIter_free_red hode] at h
    obtain ⟨_, hs, hb⟩ := stepTail_failed env _ _ _ _ _ _ _ h
    exact ⟨hs, hb⟩

/-- One loop iteration: completion returns `tmax` when `tnext ≤ tmax` held on
entry. -/
lemma stepIter_finished_t {env : Env} {st0 : SimState} {tf : ℚ} {s2 : SimState}
    (hnx : st0.tnext ≤ st0.tmax) (h : stepIter env st0 = .finished tf s2) :
    tf = st0.tmax := by
  cases hode : st0.model.is_ode with
  | true =>
    cases hcv : st0.cvode with
    | nil =>
      rw [stepIter_nil_red hode hcv] at h
      exact IterOut.noConfusion h
    | cons o rest =>
      cases o with
      | err flag =>
        rw [stepIter_err_red hode hcv] at h
        exact IterOut.noConfusion h
      | ok cs =>
        rw [stepIter_ok_red hode hcv] at h
        refine Eq.trans (stepTail_finished_t ?_ ?_ h) ?_
        · intro _
          exact hnx
        · intro hf
          have hf2 : st0.model.is_ode = false := hf
          rw [hode] at hf2
          exact Bool.noConfusion hf2
        · rfl
  | false =>
    rw [stepIter_free_red hode] at h
    refine Eq.trans (stepTail_finished_t ?_ ?_ h) ?_
    · intro ht
      have ht2 : st0.model.is_ode = true := ht
      rw [hode] at ht2
      exact Bool.noConfusion ht2
    · intro _
      show (if st0.tnext < st0.tmax then st0.tnext else st0.tmax) ≤ st0.tmax
      split
      case isTrue hlt => exact le_of_lt hlt
      case isFalse hlt => exact le_refl _
    · rfl

/-- One loop iteration: on `cont`, `tnext ≤ tmax` holds again, the frame
fields are kept, and at most one oracle outcome was consumed. -/
lemma stepIter_cont (env : Env) (st0 : SimState) (st2 : SimState)
    (h : stepIter env st0 = .cont st2) :
    st2.tnext ≤ st2.tmax ∧ st2.tmax = st0.tmax ∧ st2.tmin = st0.tmin ∧
      st2.dynamic_logging = st0.dynamic_logging ∧
      st2.log_interval = st0.log_interval ∧ st2.logVars = st0.logVars ∧
      ∃ k, k ≤ 1 ∧ st2.cvode = st0.cvode.drop k := by
  cases hode : st0.model.is_ode with
  | true =>
    cases hcv : st0.cvode with
    | nil =>
      rw [stepIter_nil_red hode hcv] at h
      exact IterOut.noConfusion h
    | cons o rest =>
      cases o with
      | err flag =>
        rw [stepIter_err_red hode hcv] at h
        exact IterOut.noConfusion h
      | ok cs =>
        rw [stepIter_ok_red hode hcv] at h
        have hf := stepTail_cont_frame h
        refine ⟨stepTail_cont_next h, by simpa using hf.2.1, by simpa using hf.1,
          by simpa using hf.2.2.1, by simpa using hf.2.2.2.1, by simpa using hf.2.2.2.2.1,
          1, le_refl 1, by simpa [hcv] using hf.2.2.2.2.2⟩
  | false =>
    rw [stepIter_free_red hode] at h
    have hf := stepTail_cont_frame h
    refine ⟨stepTail_cont_next h, by simpa using hf.2.1, by simpa using hf.1,
      by simpa using hf.2.2.1, by simpa using hf.2.2.2.1, by simpa using hf.2.2.2.2.1,
      0, Nat.zero_le 1, by simpa using hf.2.2.2.2.2⟩


/-- Any outcome of one iteration satisfies the sensitivity frame. -/
lemma stepIter_sens_of {env : Env} {st0 : SimState} {o : IterOut}
    (h : stepIter env st0 = o) : SensFrame st0 o.state := by
  have hf := stepIter_sens env st0
  rw [h] at hf
  exact hf

/-- Any outcome of one iteration satisfies the growth frame. -/
lemma stepIter_grow_of {env : Env} {st0 : SimState} {o : IterOut}
    (hok : ∀ i n, env.appendOk i n = true)
    (h : stepIter env st0 = o) : GrowOk st0 o.state := by
  have hf := stepIter_grow env st0 hok
  rw [h] at hf
  exact hf

/-- Splitting the step budget: running `m + n` iterations is running `m`
iterations and, if that yielded, resuming with the remaining `n`.  This is
exactly what the host's repeated `sim_step` calls do. -/
lemma loopN_add (env : Env) (m n : Nat) :
    ∀ st, loopN env (m + n) st =
      (match loopN env m st with
       | (.yield _, st1) => loopN env n st1
       | r => r) := by
  induction m with
  | zero =>
    intro st
    rw [Nat.zero_add]
    rfl
  | succ m ih =>
    intro st
    rw [Nat.succ_add]
    simp only [loopN]
    cases hstep : stepIter env st with
    | cont st2 => exact ih st2
    | finished t st2 => rfl
    | failed e st2 => rfl

/-- A yielding run returns the current simulation time and consumes at most
one oracle outcome per budgeted iteration. -/
lemma loopN_yield (env : Env) :
    ∀ n st tq st2, loopN env n st = (.yield tq, st2) →
      tq = st2.t ∧ ∃ k, k ≤ n ∧ st2.cvode = st.cvode.drop k := by
  intro n
  induction n with
  | zero =>
    intro st tq st2 h
    injection h with h1 h2
    injection h1 with h1
    subst h2
    exact ⟨h1.symm, 0, Nat.le_refl 0, by rw [List.drop_zero]⟩
  | succ n ih =>
    intro st tq st2 h
    simp only [loopN] at h
    cases hstep : stepIter env st with
    | cont st1 =>
      rw [hstep] at h
      obtain ⟨h1, k, hk, hcv⟩ := ih st1 tq st2 h
      obtain ⟨_, _, _, _, _, _, k1, hk1, hcv1⟩ := stepIter_cont env st st1 hstep
      refine ⟨h1, k + k1, ?_, ?_⟩
      · exact Nat.add_le_add hk hk1
      · rw [hcv, hcv1, List.drop_drop, Nat.add_comm k1 k]
    | finished t st1 =>
      rw [hstep] at h
      injection h with h1 h2
      exact StepResult.noConfusion h1
    | failed e st1 =>
      rw [hstep] at h
      injection h with h1 h2
      exact StepResult.noConfusion h1

/-- A completed run returns exactly `tmax`, provided the halting point was
bounded by `tmax` on entry. -/
lemma loopN_done_tmax (env : Env) :
    ∀ n st tf st2, st.tnext ≤ st.tmax → loopN env n st = (.done tf, st2) →
      tf = st.tmax := by
  intro n
  induction n with
  | zero =>
    intro st tf st2 hnx h
    injection h with h1 h2
    exact StepResult.noConfusion h1
  | succ n ih =>
    intro st tf st2 hnx h
    simp only [loopN] at h
    cases hstep : stepIter env st with
    | cont st1 =>
      rw [hstep] at h
      obtain ⟨hnx1, htm, _, _, _, _, _⟩ := stepIter_cont env st st1 hstep
      rw [← htm]
      exact ih st1 tf st2 hnx1 h
    | finished t st1 =>
      rw [hstep] at h
      injection h with h1 h2
      injection h1 with h1
      rw [← h1]
      exact stepIter_finished_t hnx hstep
    | failed e st1 =>
      rw [hstep] at h
      injection h with h1 h2
      exact StepResult.noConfusion h1

/-- Every error surfaced by the loop arises from a single failing
iteration, whose failure state is returned unchanged. -/
lemma loopN_error_src (env : Env) :
    ∀ n st e st2, loopN env n st = (.error e, st2) →
      ∃ st1, stepIter env st1 = .failed e st2 := by
  intro n
  induction n with
  | zero =>
    intro st e st2 h
    injection h with h1 h2
    exact StepResult.noConfusion h1
  | succ n ih =>
    intro st e st2 h
    simp only [loopN] at h
    cases hstep : stepIter env st with
    | cont st1 =>
      rw [hstep] at h
      exact ih st1 e st2 h
    | finished t st1 =>
      rw [hstep] at h
      injection h with h1 h2
      exact StepResult.noConfusion h1
    | failed e1 st1 =>
      rw [hstep] at h
      injection h with h1 h2
      injection h1 with h1
      subst h1
      subst h2
      exact ⟨st, hstep⟩

/-- Whole runs satisfy the sensitivity frame. -/
lemma loopN_sens (env : Env) :
    ∀ n st, SensFrame st (loopN env n st).2 := by
  intro n
  induction n with
  | zero => intro st; exact sensFrame_rfl st
  | succ n ih =>
    intro st
    simp only [loopN]
    cases hstep : stepIter env st with
    | cont st1 => exact sensFrame_trans (stepIter_sens_of hstep) (ih st1)
    | finished t st1 => exact stepIter_sens_of hstep
    | failed e st1 => exact stepIter_sens_of hstep

/-- Whole runs satisfy the growth frame when appends succeed. -/
lemma loopN_grow (env : Env) (hok : ∀ i n, env.appendOk i n = true) :
    ∀ n st, GrowOk st (loopN env n st).2 := by
  intro n
  induction n with
  | zero => intro st; exact growOk_rfl st
  | succ n ih =>
    intro st
    simp only [loopN]
    cases hstep : stepIter env st with
    | cont st1 => exact growOk_trans (stepIter_grow_of hok hstep) (ih st1)
    | finished t st1 => exact stepIter_grow_of hok hstep
    | failed e st1 => exact stepIter_grow_of hok hstep


/-- The dynamic stage is the termination check alone when dynamic logging is
off. -/
lemma stepDyn_not_dyn {env : Env} {st : SimState} (h : st.dynamic_logging = false) :
    stepDyn env st = finishCheck env st := by
  simp only [stepDyn, h, Bool.false_eq_true, if_false]

/-- When the equality test implies true equality, the snap is a no-op and the
termination check is a plain comparison. -/
lemma finishCheck_sound {env : Env} (hesys : ∀ a b, env.esys_eq a b = true → a = b)
    (st : SimState) :
    finishCheck env st =
      (if st.tmax ≤ st.t then .finished st.t (writeFinal st) else .cont st) := by
  rw [finishCheck_spec]
  by_cases he : env.esys_eq st.t st.tmax = true
  · have hteq := hesys _ _ he
    rw [if_pos he]
    have hst : ({ st with t := st.tmax } : SimState) = st :=
      Eq.trans (congrArg (fun x => ({ st with t := x } : SimState)) hteq.symm) rfl
    rw [hst, hteq]
  · rw [if_neg he]

/-- After the (possibly skipped) interpolated-logging stage in periodic mode,
the cursor stays consistent, the trace holds exactly the periodic points so
far, and `t` no longer exceeds the cursor. -/
lemma stepLog_pre_periodic {env : Env} {st st1 : SimState}
    {interp : ℚ → List ℚ} {interpS : ℚ → List (List ℚ)}
    (hd : 0 < st.log_interval) (hdyn : st.dynamic_logging = false)
    (htlog : st.tlog = st.tmin + (st.ilog : ℚ) * st.log_interval)
    (htr : st.logTimes = (List.range st.ilog).map
      (fun (i : Nat) => st.tmin + (i : ℚ) * st.log_interval))
    (heq : (if !st.dynamic_logging && st.tlog < st.t
            then logLoop env interp interpS env.logFuel st else .ok st) = .ok st1) :
    LogFrame st st1 ∧
      st1.tlog = st1.tmin + (st1.ilog : ℚ) * st1.log_interval ∧
      st1.logTimes = (List.range st1.ilog).map
        (fun (i : Nat) => st1.tmin + (i : ℚ) * st1.log_interval) ∧
      st.ilog ≤ st1.ilog ∧ st1.t ≤ st1.tlog ∧
      (∀ i : Nat, st.ilog ≤ i → i < st1.ilog →
        st1.tmin + (i : ℚ) * st1.log_interval < st1.t) := by
  split at heq
  case isTrue hg =>
    obtain ⟨c1, c2, c3, c4, c5⟩ :=
      logLoop_periodic env interp interpS env.logFuel st st1 hd htlog htr heq
    exact ⟨logLoop_frame_ok heq, c1, c2, c3, c4, c5⟩
  case isFalse hg =>
    injection heq with h1
    subst h1
    simp only [hdyn, Bool.not_false, Bool.true_and, decide_eq_true_eq] at hg
    exact ⟨logFrame_rfl st, htlog, htr, Nat.le_refl _, le_of_not_lt hg,
      fun i hi1 hi2 => absurd (Nat.lt_of_le_of_lt hi1 hi2) (Nat.lt_irrefl _)⟩


/-- The logging stage, pacing update and termination check in periodic mode
with a sound equality test: `cont` re-establishes the periodic invariant and
`finished` pins down the trace. -/
lemma stepLog_periodic {env : Env} {st : SimState}
    {interp : ℚ → List ℚ} {interpS : ℚ → List (List ℚ)} {T0 m0 d : ℚ}
    (hesys : ∀ a b, env.esys_eq a b = true → a = b)
    (hd : 0 < d) (hdyn : st.dynamic_logging = false) (hdd : st.log_interval = d)
    (hm : st.tmin = m0) (hT : st.tmax = T0) (hle : st.t ≤ T0)
    (htlog : st.tlog = m0 + (st.ilog : ℚ) * d)
    (htr : st.logTimes = (List.range st.ilog).map (fun (i : Nat) => m0 + (i : ℚ) * d))
    (hab : ∀ i : Nat, i < st.ilog → m0 + (i : ℚ) * d < T0) :
    (∀ st2, stepLog env st interp interpS = .cont st2 →
       st2.dynamic_logging = false ∧ st2.log_interval = d ∧ st2.tmin = m0 ∧
       st2.tmax = T0 ∧ st2.tnext ≤ T0 ∧
       st2.tlog = m0 + (st2.ilog : ℚ) * d ∧
       st2.logTimes = (List.range st2.ilog).map (fun (i : Nat) => m0 + (i : ℚ) * d) ∧
       (∀ i : Nat, i < st2.ilog → m0 + (i : ℚ) * d < T0)) ∧
    (∀ tf st2, stepLog env st interp interpS = .finished tf st2 →
       st2.logTimes = (List.range st2.ilog).map (fun (i : Nat) => m0 + (i : ℚ) * d) ∧
       T0 ≤ m0 + (st2.ilog : ℚ) * d ∧
       (∀ i : Nat, i < st2.ilog → m0 + (i : ℚ) * d < T0)) := by
  have hd0 : 0 < st.log_interval := by rw [hdd]; exact hd
  have htlog0 : st.tlog = st.tmin + (st.ilog : ℚ) * st.log_interval := by
    rw [hdd, hm]; exact htlog
  have htr0 : st.logTimes = (List.range st.ilog).map
      (fun (i : Nat) => st.tmin + (i : ℚ) * st.log_interval) := by
    rw [hdd, hm]; exact htr
  constructor
  · intro st2 h
    unfold stepLog at h
    split at h
    next es heq => exact IterOut.noConfusion h
    next st1 heq =>
      obtain ⟨hf, p1, p2, p3, p4, p5⟩ := stepLog_pre_periodic hd0 hdyn htlog0 htr0 heq
      have e_t : st1.t = st.t := hf.1
      have e_min : st1.tmin = m0 := hf.2.2.1.trans hm
      have e_max : st1.tmax = T0 := hf.2.2.2.1.trans hT
      have e_dyn : st1.dynamic_logging = false := hf.2.2.2.2.1.trans hdyn
      have e_d : st1.log_interval = d := hf.2.2.2.2.2.1.trans hdd
      have hPdyn : (pacingUpdate st1).dynamic_logging = false := by
        rw [pacingUpdate_dynamic]; exact e_dyn
      rw [stepDyn_not_dyn hPdyn, finishCheck_sound hesys] at h
      split at h
      next hge => exact IterOut.noConfusion h
      next hge =>
        injection h with h1
        subst h1
        refine ⟨hPdyn,
          by rw [pacingUpdate_logInterval]; exact e_d,
          by rw [pacingUpdate_tmin]; exact e_min,
          by rw [pacingUpdate_tmax]; exact e_max,
          ?_, ?_, ?_, ?_⟩
        · have hx := pacingUpdate_tnext_le st1
          rw [e_max] at hx
          exact hx
        · rw [pacingUpdate_tlog, pacingUpdate_ilog, p1, e_min, e_d]
        · rw [pacingUpdate_logTimes, pacingUpdate_ilog, p2, e_min, e_d]
        · intro i hi
          rw [pacingUpdate_ilog] at hi
          rcases Nat.lt_or_ge i st.ilog with hio | hio
          · exact hab i hio
          · have h5 := p5 i hio hi
            rw [e_min, e_d] at h5
            calc m0 + (i : ℚ) * d < st1.t := h5
              _ ≤ T0 := by rw [e_t]; exact hle
  · intro tf st2 h
    unfold stepLog at h
    split at h
    next es heq => exact IterOut.noConfusion h
    next st1 heq =>
      obtain ⟨hf, p1, p2, p3, p4, p5⟩ := stepLog_pre_periodic hd0 hdyn htlog0 htr0 heq
      have e_t : st1.t = st.t := hf.1
      have e_min : st1.tmin = m0 := hf.2.2.1.trans hm
      have e_max : st1.tmax = T0 := hf.2.2.2.1.trans hT
      have e_dyn : st1.dynamic_logging = false := hf.2.2.2.2.1.trans hdyn
      have e_d : st1.log_interval = d := hf.2.2.2.2.2.1.trans hdd
      have hPdyn : (pacingUpdate st1).dynamic_logging = false := by
        rw [pacingUpdate_dynamic]; exact e_dyn
      rw [stepDyn_not_dyn hPdyn, finishCheck_sound hesys] at h
      split at h
      next hge =>
        injection h with h1 h2
        subst h2
        refine ⟨?_, ?_, ?_⟩
        · rw [writeFinal_logTimes, writeFinal_ilog, pacingUpdate_logTimes,
            pacingUpdate_ilog, p2, e_min, e_d]
        · rw [writeFinal_ilog, pacingUpdate_ilog]
          have hge2 : T0 ≤ st1.t := by
            rw [← e_max]
            simpa using hge
          calc T0 ≤ st1.t := hge2
            _ ≤ st1.tlog := p4
            _ = m0 + (st1.ilog : ℚ) * d := by rw [p1, e_min, e_d]
        · intro i hi
          rw [writeFinal_ilog, pacingUpdate_ilog] at hi
          rcases Nat.lt_or_ge i st.ilog with hio | hio
          · exact hab i hio
          · have h5 := p5 i hio hi
            rw [e_min, e_d] at h5
            calc m0 + (i : ℚ) * d < st1.t := h5
              _ ≤ T0 := by rw [e_t]; exact hle
      next hge => exact IterOut.noConfusion h


/-- One iteration tail in periodic mode. -/
lemma stepTail_periodic {env : Env} {st0 : SimState} {root : Bool} {dir : Int}
    {interp : ℚ → List ℚ} {interpS : ℚ → List (List ℚ)} {T0 m0 d : ℚ}
    (hesys : ∀ a b, env.esys_eq a b = true → a = b)
    (hd : 0 < d) (hdyn : st0.dynamic_logging = false) (hdd : st0.log_interval = d)
    (hm : st0.tmin = m0) (hT : st0.tmax = T0)
    (ht1 : st0.model.is_ode = true → st0.tnext ≤ T0)
    (ht2 : st0.model.is_ode = false → st0.t ≤ T0)
    (htlog : st0.tlog = m0 + (st0.ilog : ℚ) * d)
    (htr : st0.logTimes = (List.range st0.ilog).map (fun (i : Nat) => m0 + (i : ℚ) * d))
    (hab : ∀ i : Nat, i < st0.ilog → m0 + (i : ℚ) * d < T0) :
    (∀ st2, stepTail env st0 root dir interp interpS = .cont st2 →
       st2.dynamic_logging = false ∧ st2.log_interval = d ∧ st2.tmin = m0 ∧
       st2.tmax = T0 ∧ st2.tnext ≤ T0 ∧
       st2.tlog = m0 + (st2.ilog : ℚ) * d ∧
       st2.logTimes = (List.range st2.ilog).map (fun (i : Nat) => m0 + (i : ℚ) * d) ∧
       (∀ i : Nat, i < st2.ilog → m0 + (i : ℚ) * d < T0)) ∧
    (∀ tf st2, stepTail env st0 root dir interp interpS = .finished tf st2 →
       st2.logTimes = (List.range st2.ilog).map (fun (i : Nat) => m0 + (i : ℚ) * d) ∧
       T0 ≤ m0 + (st2.ilog : ℚ) * d ∧
       (∀ i : Nat, i < st2.ilog → m0 + (i : ℚ) * d < T0)) := by
  unfold stepTail
  cases hz : zeroStepCheck st0.t st0.tlast st0.zero_step_count with
  | none =>
    constructor
    · intro st2 h
      exact IterOut.noConfusion h
    · intro tf st2 h
      exact IterOut.noConfusion h
  | some zc =>
    refine stepLog_periodic hesys hd ?_ ?_ ?_ ?_ ?_ ?_ ?_ ?_
    · rw [rewindRoot_dynamic]
      exact hdyn
    · rw [rewindRoot_logInterval]
      exact hdd
    · rw [rewindRoot_tmin]
      exact hm
    · rw [rewindRoot_tmax]
      exact hT
    · refine le_of_le_of_eq (rewindRoot_t_le _ root dir interp interpS ?_ ?_) ?_
      · intro hh
        exact le_of_le_of_eq (ht1 hh) hT.symm
      · intro hh
        exact le_of_le_of_eq (ht2 hh) hT.symm
      · exact hT
    · rw [rewindRoot_tlog, rewindRoot_ilog]
      exact htlog
    · rw [rewindRoot_logTimes, rewindRoot_ilog]
      exact htr
    · intro i hi
      rw [rewindRoot_ilog] at hi
      exact hab i hi

/-- One whole loop iteration in periodic mode: `cont` re-establishes the
invariant, `finished` pins down the trace. -/
lemma stepIter_periodic {env : Env} {st0 : SimState} {T0 m0 d : ℚ}
    (hesys : ∀ a b, env.esys_eq a b = true → a = b)
    (hd : 0 < d) (hinv : PerInv T0 m0 d st0) :
    (∀ st2, stepIter env st0 = .cont st2 → PerInv T0 m0 d st2) ∧
    (∀ tf st2, stepIter env st0 = .finished tf st2 →
       st2.logTimes = (List.range st2.ilog).map (fun (i : Nat) => m0 + (i : ℚ) * d) ∧
       T0 ≤ m0 + (st2.ilog : ℚ) * d ∧
       (∀ i : Nat, i < st2.ilog → m0 + (i : ℚ) * d < T0)) := by
  obtain ⟨i1, i2, i3, i4, i5, i6, i7, i8⟩ := hinv
  simp only [PerInv]
  cases hode : st0.model.is_ode with
  | true =>
    cases hcv : st0.cvode with
    | nil =>
      rw [stepIter_nil_red hode hcv]
      constructor
      · intro st2 h
        exact IterOut.noConfusion h
      · intro tf st2 h
        exact IterOut.noConfusion h
    | cons o rest =>
      cases o with
      | err flag =>
        rw [stepIter_err_red hode hcv]
        constructor
        · intro st2 h
          exact IterOut.noConfusion h
        · intro tf st2 h
          exact IterOut.noConfusion h
      | ok cs =>
        rw [stepIter_ok_red hode hcv]
        refine stepTail_periodic hesys hd ?_ ?_ ?_ ?_ ?_ ?_ ?_ ?_ ?_
        · exact i1
        · exact i2
        · exact i3
        · exact i4
        · intro _
          exact i5
        · intro hf
          have hf2 : st0.model.is_ode = false := hf
          rw [hode] at hf2
          exact Bool.noConfusion hf2
        · exact i6
        · exact i7
        · exact i8
  | false =>
    rw [stepIter_free_red hode]
    refine stepTail_periodic hesys hd ?_ ?_ ?_ ?_ ?_ ?_ ?_ ?_ ?_
    · exact i1
    · exact i2
    · exact i3
    · exact i4
    · intro ht
      have ht2 : st0.model.is_ode = true := ht
      rw [hode] at ht2
      exact Bool.noConfusion ht2
    · intro _
      show (if st0.tnext < st0.tmax then st0.tnext else st0.tmax) ≤ T0
      split
      case isTrue hlt => exact i5
      case isFalse hlt => exact le_of_eq i4
    · exact i6
    · exact i7
    · exact i8

/-- A completed periodic-logging run: the trace is exactly the periodic
points, the cursor has passed `T0`, and every point lies strictly below
`T0`. -/
lemma loopN_periodic (env : Env) {T0 m0 d : ℚ}
    (hesys : ∀ a b, env.esys_eq a b = true → a = b) (hd : 0 < d) :
    ∀ n st tf st2, PerInv T0 m0 d st → loopN env n st = (.done tf, st2) →
      st2.logTimes = (List.range st2.ilog).map (fun (i : Nat) => m0 + (i : ℚ) * d) ∧
      T0 ≤ m0 + (st2.ilog : ℚ) * d ∧
      (∀ i : Nat, i < st2.ilog → m0 + (i : ℚ) * d < T0) := by
  intro n
  induction n with
  | zero =>
    intro st tf st2 hinv h
    injection h with h1 h2
    exact StepResult.noConfusion h1
  | succ n ih =>
    intro st tf st2 hinv h
    simp only [loopN] at h
    cases hstep : stepIter env st with
    | cont st1 =>
      rw [hstep] at h
      exact ih st1 tf st2 ((stepIter_periodic hesys hd hinv).1 st1 hstep) h
    | finished t st1 =>
      rw [hstep] at h
      injection h with h1 h2
      subst h2
      exact (stepIter_periodic hesys hd hinv).2 t st1 hstep
    | failed e st1 =>
      rw [hstep] at h
      injection h with h1 h2
      exact StepResult.noConfusion h1


/-- A count `n` with `x ≤ n` and every predecessor strictly below `x` is the
ceiling of `x`. -/
lemma count_eq_ceil {x : ℚ} {n : Nat} (hle : x ≤ (n : ℚ))
    (hlt : ∀ i : Nat, i < n → (i : ℚ) < x) : n = ⌈x⌉.toNat := by
  cases n with
  | zero =>
    have h0 : ⌈x⌉ ≤ 0 := by
      rw [Int.ceil_le]
      exact_mod_cast hle
    omega
  | succ m =>
    have hm : (m : ℚ) < x := hlt m (Nat.lt_succ_self m)
    have hc : ⌈x⌉ = (m + 1 : ℤ) := by
      rw [Int.ceil_eq_iff]
      constructor
      · push_cast
        linarith
      · push_cast
        exact_mod_cast hle
    rw [hc]
    omega

/-- The number of periodic points up to a bound is the ceiling of the scaled
range. -/
lemma periodic_count {T0 m0 d : ℚ} {n : Nat} (hd : 0 < d)
    (h1 : T0 ≤ m0 + (n : ℚ) * d) (h2 : ∀ i : Nat, i < n → m0 + (i : ℚ) * d < T0) :
    n = (⌈(T0 - m0) / d⌉).toNat := by
  refine count_eq_ceil ?_ ?_
  · rw [div_le_iff hd]
    linarith
  · intro i hi
    rw [lt_div_iff hd]
    have := h2 i hi
    linarith


/-! Claim theorems. -/

/-- C9: `Model_EvaluateDerivatives` writes only the intermediary and
derivatives arrays; the states, the bound variables (time, pace, realtime,
evaluations), the literals, the literal-derived constants, the parameters,
the parameter-derived constants and all sensitivity arrays are unchanged. -/
theorem C9_derivatives_frame (ops : MathOps) (m : Model) :
    (Model_EvaluateDerivatives ops m).states = m.states ∧
    (Model_EvaluateDerivatives ops m).time = m.time ∧
    (Model_EvaluateDerivatives ops m).pace_values = m.pace_values ∧
    (Model_EvaluateDerivatives ops m).realtime = m.realtime ∧
    (Model_EvaluateDerivatives ops m).evaluations = m.evaluations ∧
    (Model_EvaluateDerivatives ops m).literals = m.literals ∧
    (Model_EvaluateDerivatives ops m).literal_derived = m.literal_derived ∧
    (Model_EvaluateDerivatives ops m).parameters = m.parameters ∧
    (Model_EvaluateDerivatives ops m).parameter_derived = m.parameter_derived ∧
    (Model_EvaluateDerivatives ops m).s_independents = m.s_independents ∧
    (Model_EvaluateDerivatives ops m).s_is_parameter = m.s_is_parameter ∧
    (Model_EvaluateDerivatives ops m).s_states = m.s_states ∧
    (Model_EvaluateDerivatives ops m).s_intermediary = m.s_intermediary :=
  ⟨rfl, rfl, rfl, rfl, rfl, rfl, rfl, rfl, rfl, rfl, rfl, rfl, rfl⟩

/-- C10: every model returned by `Model_Create` has the fixed configuration
`is_ode = true`, `has_sensitivities = false`, `n_states = 8`,
`n_intermediary = 27`, `n_parameters = 0`, `ns_independents = 0` and
`n_literals = 17`, with the literal-derived constants already evaluated from
the default literal values; consequently any run whose model has
sensitivities disabled keeps them disabled and never appends a sensitivity
row. -/
theorem C10_model_config (ops : MathOps) (junk : ℚ) :
    (Model_Create ops junk).is_ode = true ∧
    (Model_Create ops junk).has_sensitivities = false ∧
    (Model_Create ops junk).n_states = 8 ∧
    (Model_Create ops junk).n_intermediary = 27 ∧
    (Model_Create ops junk).n_parameters = 0 ∧
    (Model_Create ops junk).ns_independents = 0 ∧
    (Model_Create ops junk).n_literals = 17 ∧
    (Model_Create ops junk).literal_derived =
      [8314 * 310 / 96500,
       0.282 * ops.sqrt (5.4 / 5.4),
       8314 * 310 / 96500 * ops.log ((5.4 + 0.01833 * 140) / (145 + 0.01833 * 10)),
       8314 * 310 / 96500 * ops.log (5.4 / 145),
       0.6047 * ops.sqrt (5.4 / 5.4),
       8314 * 310 / 96500 * ops.log (140 / 10)] ∧
    (∀ env st n, st.model.has_sensitivities = false →
       (loopN env n st).2.sensRows = st.sensRows ∧
       (loopN env n st).2.model.has_sensitivities = false) :=
  ⟨rfl, rfl, rfl, rfl, rfl, rfl, rfl, by with_unfolding_all rfl,
    fun env st n h => loopN_sens env n st h⟩

/-- Witness for C10 on a concrete completing run. -/
theorem C10_model_config_witness :
    fxC6.model.has_sensitivities = false ∧
    (loopN fxEnv 100 fxC6).2.sensRows = fxC6.sensRows ∧
    (loopN fxEnv 100 fxC6).2.model.has_sensitivities = false :=
  ⟨rfl, (C10_model_config fxOps 0).2.2.2.2.2.2.2.2 fxEnv fxC6 100 rfl⟩

/-- C2 (amended): the per-independent scaling of lines 2316-2318 is
`pbar[i] = |p_i|` for nonzero `p_i` and `1` for `p_i = 0`; it agrees with the
spec's `max(|p_i|, 1)` exactly when every independent is zero or at least one
in magnitude. -/
theorem C2_pbar_scaling (p : List ℚ) :
    pbar_of p = p.map (fun x => if x = 0 then 1 else |x|) ∧
    (pbar_of p = pbar_spec p ↔ ∀ x ∈ p, x = 0 ∨ 1 ≤ |x|) := by
  constructor
  · rfl
  · unfold pbar_of pbar_spec
    rw [List.map_eq_map_iff]
    constructor
    · intro h x hx
      have hp := h x hx
      by_cases hz : x = 0
      · exact Or.inl hz
      · rw [if_neg hz] at hp
        rcases le_total 1 |x| with h1 | h1
        · exact Or.inr h1
        · rw [max_eq_right h1] at hp
          exact Or.inr (le_of_eq hp.symm)
    · intro h x hx
      by_cases hz : x = 0
      · rw [if_pos hz, hz]
        simp
      · rcases h x hx with h0 | h1
        · exact absurd h0 hz
        · rw [if_neg hz, max_eq_left h1]

/-- Counterexample to C2 as stated: at `p = [1/2]` the code's scaling is
`[1/2]`, not the spec's `max(|1/2|, 1) = 1`. -/
theorem C2_counterexample :
    pbar_of [(1 : ℚ)/2] = [1/2] ∧ pbar_spec [(1 : ℚ)/2] = [1] ∧
    pbar_of [(1 : ℚ)/2] ≠ pbar_spec [(1 : ℚ)/2] := by
  refine ⟨by with_unfolding_all rfl, by with_unfolding_all rfl,
    by with_unfolding_all decide⟩

/-- C7: `sim_eval_derivatives` is not stateless: two calls with identical
`(t, pace_values, states, literals, parameters)` arguments behave
differently depending on the module-level `n_pace` left behind by the last
`sim_init` (passed here as the explicit `n_pace` argument), because the
pacing-value read loop at lines 3110-3118 uses that global rather than the
length of the supplied list. -/
theorem C7_eval_derivatives_history :
    (∃ v, sim_eval_derivatives fxOps 0 1 0 [1/2]
        (Model_Create fxOps 0).states (Model_Create fxOps 0).literals [] = .ok v) ∧
    sim_eval_derivatives fxOps 0 2 0 [1/2]
        (Model_Create fxOps 0).states (Model_Create fxOps 0).literals [] = .error () := by
  constructor
  · exact ⟨_, rfl⟩
  · rfl


/-- C1 (amended): only the integrator-step failure writes outputs before
teardown — it writes the backup state `ylast`, the backup time `tlast` and
the current bound/pacing values to the caller's lists; every other failure
of an iteration (zero-step limit, logging failures, oracle exhaustion)
leaves the caller's output lists untouched; and every error surfaced by a
`sim_step` run arises from a single failing iteration returned unchanged. -/
theorem C1_error_output_writes (env : Env) (st : SimState) :
    (∀ flag rest, st.model.is_ode = true →
       st.cvode = CVodeOutcome.err flag :: rest →
       stepIter env st = .failed (.integrator flag)
         { st with ylast := st.y, tlast := st.t, cvode := rest,
                   state_py := writeFloats st.state_py st.y st.model.n_states,
                   bound_py := writeBound st.bound_py st.t st.realtime
                     (st.evaluations : ℚ) st.pacing }) ∧
    (∀ e s2, stepIter env st = .failed e s2 → (∀ flag, e ≠ .integrator flag) →
       s2.state_py = st.state_py ∧ s2.bound_py = st.bound_py) ∧
    (∀ n e st2, loopN env n st = (.error e, st2) →
       ∃ st1, stepIter env st1 = .failed e st2) :=
  ⟨fun flag rest hode hcv => stepIter_err_red hode hcv,
   fun e s2 h hni => stepIter_failed_outputs env st e s2 h hni,
   fun n e st2 h => loopN_error_src env n st e st2 h⟩

/-- Witness for C1 on concrete failing runs: an integrator failure writes
the backup values, and the written lists differ from the untouched ones. -/
theorem C1_error_output_writes_witness :
    fxC1b.model.is_ode = true ∧
    fxC1b.cvode = CVodeOutcome.err (-4) :: [] ∧
    stepIter fxEnv fxC1b = .failed (.integrator (-4))
      { fxC1b with ylast := fxC1b.y, tlast := fxC1b.t, cvode := [],
                   state_py := writeFloats fxC1b.state_py fxC1b.y fxC1b.model.n_states,
                   bound_py := writeBound fxC1b.bound_py fxC1b.t fxC1b.realtime
                     (fxC1b.evaluations : ℚ) fxC1b.pacing } :=
  ⟨rfl, rfl, (C1_error_output_writes fxEnv fxC1b).1 (-4) [] rfl rfl⟩

/-- Counterexample to C1 as stated: the zero-step-limit error tears down
without writing the outputs — the caller's state list is left untouched and
differs from what the claimed write would have produced. -/
theorem C1_counterexample :
    (loopN fxEnv 100 fxC1).1 = .error .zeroStep ∧
    (loopN fxEnv 100 fxC1).2.state_py = fxC1.state_py ∧
    writeFloats fxC1.state_py fxC1.y fxC1.model.n_states ≠ fxC1.state_py := by
  refine ⟨by with_unfolding_all rfl, by with_unfolding_all rfl,
    by with_unfolding_all decide⟩

/-- C4: an iteration whose oracle step lands exactly on the backed-up time
increments the zero-step counter and fails with the zero-step error exactly
when the incremented counter reaches 500, while an iteration that makes
progress resets the counter to zero. -/
theorem C4_zero_step_guard (env : Env) (st : SimState) (cs : CVodeStep)
    (rest : List CVodeOutcome)
    (hode : st.model.is_ode = true) (hcv : st.cvode = CVodeOutcome.ok cs :: rest) :
    (cs.t = st.t → 500 ≤ st.zero_step_count + 1 →
       ∃ s2, stepIter env st = .failed .zeroStep s2) ∧
    (∀ s2, stepIter env st = .failed .zeroStep s2 →
       cs.t = st.t ∧ 500 ≤ st.zero_step_count + 1) ∧
    (cs.t = st.t → st.zero_step_count + 1 < 500 →
       (stepIter env st).state.zero_step_count = st.zero_step_count + 1) ∧
    (cs.t ≠ st.t → (stepIter env st).state.zero_step_count = 0) := by
  rw [stepIter_ok_red hode hcv]
  refine ⟨?_, ?_, ?_, ?_⟩
  · intro heq hlim
    refine ⟨_, (stepTail_zeroFail env _ cs.root cs.rootDir cs.interp cs.interpS _).mpr
      ⟨?_, rfl⟩⟩
    show zeroStepCheck cs.t st.t st.zero_step_count = none
    unfold zeroStepCheck
    rw [if_pos heq,
      if_pos (show max_zero_step_count ≤ st.zero_step_count + 1 from hlim)]
  · intro s2 h
    obtain ⟨hz, _⟩ :=
      (stepTail_zeroFail env _ cs.root cs.rootDir cs.interp cs.interpS s2).mp h
    have hz2 : zeroStepCheck cs.t st.t st.zero_step_count = none := hz
    unfold zeroStepCheck at hz2
    by_cases he : cs.t = st.t
    · rw [if_pos he] at hz2
      by_cases hl : max_zero_step_count ≤ st.zero_step_count + 1
      · exact ⟨he, hl⟩
      · rw [if_neg hl] at hz2
        exact Option.noConfusion hz2
    · rw [if_neg he] at hz2
      exact Option.noConfusion hz2
  · intro heq hlt
    refine stepTail_zc ?_
    show zeroStepCheck cs.t st.t st.zero_step_count = some (st.zero_step_count + 1)
    unfold zeroStepCheck
    rw [if_pos heq, if_neg (show ¬ max_zero_step_count ≤ st.zero_step_count + 1 by
      unfold max_zero_step_count
      omega)]
  · intro hne
    refine stepTail_zc ?_
    show zeroStepCheck cs.t st.t st.zero_step_count = some 0
    unfold zeroStepCheck
    rw [if_neg hne]

/-- Witness for C4: a state at counter 499 trips the limit on a zero-length
step, and a productive step resets the counter. -/
theorem C4_zero_step_guard_witness :
    (∃ s2, stepIter fxEnv fxC1 = .failed .zeroStep s2) ∧
    (stepIter fxEnv fxC3).state.zero_step_count = 0 :=
  ⟨(C4_zero_step_guard fxEnv fxC1 (fxStep 0) [] rfl rfl).1
      (by with_unfolding_all rfl) (by with_unfolding_all decide),
   (C4_zero_step_guard fxEnv fxC3 (fxStep 1) [] rfl rfl).2.2.2
      (by with_unfolding_all decide)⟩

/-- C5: a `sim_step` call runs at most 100 loop iterations, consuming at
most 100 oracle outcomes; on a yield it returns the current simulation time,
and a further call resumes the loop exactly where it stopped. -/
theorem C5_step_budget (env : Env) (st : SimState) :
    (∀ tq, (sim_step env st).1 = .yield tq →
       tq = (sim_step env st).2.t ∧
       ∃ k, k ≤ 100 ∧ (sim_step env st).2.cvode = st.cvode.drop k) ∧
    (∀ tq st1, sim_step env st = (.yield tq, st1) →
       ∀ n, loopN env (100 + n) st = loopN env n st1) := by
  constructor
  · intro tq hy
    have hpair : sim_step env st = (.yield tq, (sim_step env st).2) := by rw [← hy]
    exact loopN_yield env 100 st tq _ hpair
  · intro tq st1 hy n
    have hadd := loopN_add env 100 n st
    rw [show loopN env 100 st = (.yield tq, st1) from hy] at hadd
    exact hadd

/-- Witness for C5: a run with 150 pending oracle steps yields after exactly
100, returns the reached time, and resumes from the yielded state. -/
theorem C5_step_budget_witness :
    (sim_step fxEnv fxC5).1 = .yield (1/10) ∧
    ((1 : ℚ)/10 = (sim_step fxEnv fxC5).2.t ∧
     ∃ k, k ≤ 100 ∧ (sim_step fxEnv fxC5).2.cvode = fxC5.cvode.drop k) ∧
    loopN fxEnv (100 + 7) fxC5 = loopN fxEnv 7 (sim_step fxEnv fxC5).2 := by
  have h1 : (sim_step fxEnv fxC5).1 = StepResult.yield (1/10) := by
    with_unfolding_all rfl
  have hpair : sim_step fxEnv fxC5 = (.yield (1/10), (sim_step fxEnv fxC5).2) := by
    rw [← h1]
  exact ⟨h1, (C5_step_budget fxEnv fxC5).1 (1/10) h1,
    (C5_step_budget fxEnv fxC5).2 (1/10) _ hpair 7⟩

/-- C6: a run that completes (the loop breaks with `t ≥ tmax`) returns
exactly `tmax`, given that the next halting point was within `tmax` on
entry, as the driver's pacing update maintains. -/
theorem C6_done_returns_tmax (env : Env) (st : SimState) (tf : ℚ)
    (hnx : st.tnext ≤ st.tmax) (hdone : (sim_step env st).1 = .done tf) :
    tf = st.tmax := by
  have hpair : sim_step env st = (.done tf, (sim_step env st).2) := by rw [← hdone]
  exact loopN_done_tmax env 100 st tf _ hnx hpair

/-- Witness for C6 on a concrete completing run. -/
theorem C6_done_returns_tmax_witness :
    fxC6.tnext ≤ fxC6.tmax ∧ (sim_step fxEnv fxC6).1 = .done 10 ∧
    (10 : ℚ) = fxC6.tmax :=
  ⟨by with_unfolding_all decide, by with_unfolding_all rfl,
   C6_done_returns_tmax fxEnv fxC6 10 (by with_unfolding_all decide)
     (by with_unfolding_all rfl)⟩

/-- C8 (amended): when every append succeeds, a run — including one that
ends in an error — appends the same number of rows to every sink registered
in the log mapping. -/
theorem C8_sink_growth (env : Env) (st : SimState) (n : Nat)
    (hok : ∀ i j, env.appendOk i j = true)
    (hlen : st.logVars.length = st.sinks.length) :
    (loopN env n st).2.logVars.length = (loopN env n st).2.sinks.length ∧
    ∃ d2, SinkGrowth st.sinks (loopN env n st).2.sinks d2 := by
  obtain ⟨hv, hr⟩ := loopN_grow env hok n st
  exact hr hlen

/-- Witness for C8 on a concrete run that ends in an error after logging one
row to each of its two sinks. -/
theorem C8_sink_growth_witness :
    fxC8.logVars.length = fxC8.sinks.length ∧
    ((loopN fxEnv 100 fxC8).2.logVars.length = (loopN fxEnv 100 fxC8).2.sinks.length ∧
     ∃ d2, SinkGrowth fxC8.sinks (loopN fxEnv 100 fxC8).2.sinks d2) :=
  ⟨rfl, C8_sink_growth fxEnv fxC8 100 (fun _ _ => rfl) rfl⟩

/-- Counterexample to C8 as stated: when an append fails midway through a
row, the run ends with sinks of unequal length. -/
theorem C8_counterexample :
    (loopN fxEnv8 100 fxC8).1 = .error .logAppend ∧
    (loopN fxEnv8 100 fxC8).2.sinks.map List.length = [1, 0] := by
  refine ⟨by with_unfolding_all rfl, by with_unfolding_all rfl⟩

/-- C3 (amended): a completed periodic-logging run started from the
driver's periodic initialisation (`tlog = tmin`, `ilog = 0`) logs exactly at
`tmin, tmin+Δ, …, tmin + (k-1)·Δ` with `k = ⌈(tmax − tmin)/Δ⌉`, every
logged time lying strictly below `tmax`; the equality test is assumed sound,
as the float-identity `ESys_eq` of the generated protocol is. -/
theorem C3_periodic_log_times (env : Env) (st : SimState) (n : Nat) (tf : ℚ)
    (hesys : ∀ a b, env.esys_eq a b = true → a = b)
    (hdyn : st.dynamic_logging = false)
    (hd : 0 < st.log_interval)
    (hnx : st.tnext ≤ st.tmax)
    (htlog : st.tlog = st.tmin) (hilog : st.ilog = 0) (htr : st.logTimes = [])
    (hrun : (loopN env n st).1 = .done tf) :
    (loopN env n st).2.logTimes =
      (List.range ((⌈(st.tmax - st.tmin) / st.log_interval⌉).toNat)).map
        (fun (i : Nat) => st.tmin + (i : ℚ) * st.log_interval) ∧
    ∀ x ∈ (loopN env n st).2.logTimes, x < st.tmax := by
  have hinv : PerInv st.tmax st.tmin st.log_interval st := by
    refine ⟨hdyn, rfl, rfl, rfl, hnx, ?_, ?_, ?_⟩
    · rw [hilog, htlog]
      simp
    · rw [hilog, htr]
      simp
    · intro i hi
      rw [hilog] at hi
      exact absurd hi (Nat.not_lt_zero i)
  have hpair : loopN env n st = (.done tf, (loopN env n st).2) := by rw [← hrun]
  obtain ⟨c1, c2, c3⟩ := loopN_periodic env hesys hd n st tf _ hinv hpair
  have hcnt := periodic_count hd c2 c3
  constructor
  · rw [c1, ← hcnt]
  · intro x hx
    rw [c1] at hx
    simp only [List.mem_map, List.mem_range] at hx
    obtain ⟨i, hi, hxi⟩ := hx
    rw [← hxi]
    exact c3 i hi

/-- Witness for C3 on a run over `[0, 3]` with interval 2: the trace is
`[0, 2]`, which has `⌈3/2⌉ = 2` points, not `⌊3/2⌋ = 1` of them. -/
theorem C3_periodic_log_times_witness :
    (loopN fxEnv 100 fxC3b).1 = .done 3 ∧
    (loopN fxEnv 100 fxC3b).2.logTimes =
      (List.range ((⌈(fxC3b.tmax - fxC3b.tmin) / fxC3b.log_interval⌉).toNat)).map
        (fun (i : Nat) => fxC3b.tmin + (i : ℚ) * fxC3b.log_interval) ∧
    (loopN fxEnv 100 fxC3b).2.logTimes = [0, 2] := by
  refine ⟨by with_unfolding_all rfl, ?_, by with_unfolding_all rfl⟩
  exact (C3_periodic_log_times fxEnv fxC3b 100 3 (fun a b h => eq_of_beq h)
    rfl (by with_unfolding_all decide) (by with_unfolding_all decide)
    rfl rfl rfl (by with_unfolding_all rfl)).1

/-- Counterexample to C3 as stated: over `[0, 1]` with interval 1 the code
logs `[0]`, while the spec's `k = ⌊(tmax − tmin)/Δ⌋` predicts the sequence
`tmin, …, tmin + k·Δ = [0, 1]` — which moreover would violate its own
"strictly less than `tmax`" side condition. -/
theorem C3_counterexample :
    (loopN fxEnv 100 fxC3).1 = .done 1 ∧
    (loopN fxEnv 100 fxC3).2.logTimes = [0] ∧
    (List.range ((⌊(fxC3.tmax - fxC3.tmin) / fxC3.log_interval⌋).toNat + 1)).map
        (fun (i : Nat) => fxC3.tmin + (i : ℚ) * fxC3.log_interval) = [0, 1] ∧
    (loopN fxEnv 100 fxC3).2.logTimes ≠
      (List.range ((⌊(fxC3.tmax - fxC3.tmin) / fxC3.log_interval⌋).toNat + 1)).map
        (fun (i : Nat) => fxC3.tmin + (i : ℚ) * fxC3.log_interval) := by
  refine ⟨by with_unfolding_all rfl, by with_unfolding_all rfl,
    by with_unfolding_all rfl, by with_unfolding_all decide⟩

end Myokit
